import Mathlib

/-!
# Woopsi: verification of the container, slider, list box and text box cores

Shallow embedding of parts of the Woopsi GUI toolkit:

* `woopsi/dynamicarray.h`              : `DynamicArray<T>`
* `libwoopsi/src/listdataitem.cpp`     : `ListDataItem::compareTo`
* `libwoopsi/src/multilinetextbox.cpp` : row limit, cursor and keys, `drawText`,
  `drawCursor`, `getPageCount`, the constructor
* `woopsi/slidervertical.cpp`          : `getValue`, `setValue`, `click`,
  `resizeGrip`
* `libwoopsi/src/scrollinglistbox.cpp` : scrollbar / list box synchronisation
* `woopsi/calendar.cpp`                : `populateGUI` on the grid of `buildGUI`

Conventions:

* machine integers are `Nat` / `Int` with explicit wrap-around (`toU32`,
  `toS32`, `toS16`, `toS8`);
* code that can fail to return yields `Except Fault`: an access outside an
  allocated block is `outOfBounds`, a division by zero is `divideByZero`, and a
  loop that is still running when its fuel is used up is `outOfFuel`;
* the one exception is the read of `erase` one slot past a full block: the call
  goes on with the word that memory holds there, so `erase` takes that word as
  the parameter `beyond` (the read itself is traced by `eraseShiftAccesses`);
* classes that the sources only use (`Text`, the `Gadget` base class) are
  modelled from the design description and marked as such.

The definitions come first, the theorems follow.
-/

namespace Woopsi

/-! ## Machine integers -/

/-- Number of values of a 32 bit word. -/
def U32_MOD : Nat := 4294967296

/-- Conversion of an integer to `u32` (wrap-around). -/
def toU32 (n : Int) : Nat := (n % 4294967296).toNat

/-- Conversion of an integer to `s32` (two's complement wrap-around). -/
def toS32 (n : Int) : Int := (n + 2147483648) % 4294967296 - 2147483648

/-- Conversion of an integer to `s16` (two's complement wrap-around). -/
def toS16 (n : Int) : Int := (n + 32768) % 65536 - 32768

/-- Conversion of an integer to `s8` (two's complement wrap-around). -/
def toS8 (n : Int) : Int := (n + 128) % 256 - 128

/-- Conversion of an integer to `u16` (wrap-around). -/
def toU16 (n : Int) : Int := n % 65536

/-- Conversion of an integer to `u8` (wrap-around). -/
def toU8 (n : Int) : Int := n % 256

/-! ## Outcomes of code that can fault -/

/-- Ways in which a modelled call fails to return. -/
inductive Fault where
  | outOfBounds
  | outOfFuel
  | divideByZero
deriving DecidableEq, Repr

/-- Read of slot `i` of a heap block; outside the block it faults. -/
def readSlot {α : Type} (data : List α) (i : Nat) : Except Fault α :=
  match data[i]? with
  | some v => .ok v
  | none => .error .outOfBounds

/-- Write of slot `i` of a heap block; outside the block it faults. -/
def writeSlot {α : Type} (data : List α) (i : Nat) (v : α) : Except Fault (List α) :=
  if i < data.length then .ok (data.set i v) else .error .outOfBounds

/-- Read of slot `i` of a heap block by a loop that runs one slot past it:
inside the block the slot, at index `data.length` the word `beyond` that memory
holds right after the block, further out a fault. -/
def readSlotOrBeyond {α : Type} (data : List α) (beyond : α) (i : Nat) : Except Fault α :=
  match data[i]? with
  | some v => .ok v
  | none => if i = data.length then .ok beyond else .error .outOfBounds

/-- A `while` loop over a state: `test` is the loop test and `body` one round;
one unit of fuel per evaluation of the test. -/
def whileLoop {σ : Type} (test : σ → Bool) (body : σ → Except Fault σ) :
    Nat → σ → Except Fault σ
  | 0, _ => .error .outOfFuel
  | fuel + 1, s =>
    if test s then
      match body s with
      | .ok s1 => whileLoop test body fuel s1
      | .error e => .error e
    else .ok s

/-! ## dynamicarray.h -/

/-- The constant DYNAMIC_ARRAY_SIZE of dynamicarray.h. -/
def DYNAMIC_ARRAY_SIZE : Nat := 16

/-- State of a `DynamicArray<T>`: the heap block `_data` (its length is the
number of allocated slots), `_size` and `_reservedSize`. -/
structure DynamicArray (α : Type) where
  data : List α
  size : Nat
  reservedSize : Nat
deriving DecidableEq, Repr

namespace DynamicArray

variable {α : Type}

/-- The constructor: an empty array with 16 default-constructed slots. -/
def new [Inhabited α] : DynamicArray α :=
  { data := List.replicate DYNAMIC_ARRAY_SIZE default, size := 0, reservedSize := DYNAMIC_ARRAY_SIZE }

/-- The method `empty()`. -/
def empty (d : DynamicArray α) : Bool := d.size == 0

/-- The method `clear()`. -/
def clear (d : DynamicArray α) : DynamicArray α := { d with size := 0 }

/-- The method `at(index)` / `operator[]`: no bounds check against `_size`. -/
def get (d : DynamicArray α) (index : Nat) : Except Fault α := readSlot d.data index

/-- The method `resize()`: when the block is full, a block of 16 more slots is
allocated and the old `_reservedSize` slots are copied into it by `memcpy`. -/
def resize [Inhabited α] (d : DynamicArray α) : Except Fault (DynamicArray α) :=
  if d.reservedSize = d.size then
    let newSize := (d.reservedSize + DYNAMIC_ARRAY_SIZE) % U32_MOD
    if d.reservedSize ≤ newSize ∧ d.reservedSize ≤ d.data.length then
      .ok { data := d.data.take d.reservedSize ++ List.replicate (newSize - d.reservedSize) default,
            size := d.size, reservedSize := newSize }
    else .error .outOfBounds
  else .ok d

/-- The method `push_back(value)`. -/
def push_back [Inhabited α] (d : DynamicArray α) (value : α) : Except Fault (DynamicArray α) := do
  let d1 ← d.resize
  let data ← writeSlot d1.data d1.size value
  pure { d1 with data := data, size := (d1.size + 1) % U32_MOD }

/-- The method `pop_back()`. -/
def pop_back (d : DynamicArray α) : DynamicArray α :=
  if d.size ≥ 1 then { d with size := d.size - 1 } else d

/-- The shifting loop of `insert`:
`for (u32 i = _size - 1; i >= index; i--) _data[i + 1] = _data[i];`
with `i` the current counter; one unit of fuel per evaluation of the loop test. -/
def insertShift (index : Nat) : Nat → Nat → List α → Except Fault (List α)
  | 0, _, _ => .error .outOfFuel
  | fuel + 1, i, data =>
    if i ≥ index then do
      let v ← readSlot data i
      let data1 ← writeSlot data ((i + 1) % U32_MOD) v
      insertShift index fuel ((i + U32_MOD - 1) % U32_MOD) data1
    else .ok data

/-- The method `insert(index, value)`. -/
def insert [Inhabited α] (fuel : Nat) (d : DynamicArray α) (index : Nat) (value : α) :
    Except Fault (DynamicArray α) :=
  if index ≥ d.size then d.push_back value
  else do
    let d1 ← d.resize
    let data1 ← insertShift index fuel ((d1.size + U32_MOD - 1) % U32_MOD) d1.data
    let data2 ← writeSlot data1 index value
    pure { d1 with data := data2, size := (d1.size + 1) % U32_MOD }

/-- The shifting loop of `erase`:
`for (u32 i = index; i < _size; i++) _data[i] = _data[i + 1];`
with `i` the current counter; one unit of fuel per evaluation of the loop test.
In its last round, `i = _size - 1`, the loop reads `_data[_size]`, which on a
full block is the word `beyond` after the block. -/
def eraseShift (size : Nat) (beyond : α) : Nat → Nat → List α → Except Fault (List α)
  | 0, _, _ => .error .outOfFuel
  | fuel + 1, i, data =>
    if i < size then do
      let v ← readSlotOrBeyond data beyond ((i + 1) % U32_MOD)
      let data1 ← writeSlot data i v
      eraseShift size beyond fuel ((i + 1) % U32_MOD) data1
    else .ok data

/-- The method `erase(index)`; `beyond` is the word that memory holds right
after the block `_data`. -/
def erase (fuel : Nat) (beyond : α) (d : DynamicArray α) (index : Nat) :
    Except Fault (DynamicArray α) :=
  if index ≥ d.size then .ok d
  else do
    let data1 ← eraseShift d.size beyond fuel index d.data
    pure { d with data := data1, size := (d.size + U32_MOD - 1) % U32_MOD }

/-- The sequence held by the array: the first `_size` slots. -/
def toList (d : DynamicArray α) : List α := d.data.take d.size

/-- Representation invariant: the block has `_reservedSize` slots, of which
`_size` are used, and both fit a `u32`. -/
def WF (d : DynamicArray α) : Prop :=
  d.data.length = d.reservedSize ∧ d.size ≤ d.reservedSize ∧ d.reservedSize < U32_MOD

/-- Array built from a list by pushing its elements in order. -/
def ofList [Inhabited α] (xs : List α) : Except Fault (DynamicArray α) :=
  xs.foldlM (fun d x => d.push_back x) new

end DynamicArray

/-! ## listdataitem.cpp -/

/-- The C library function `strcmp` on the bytes of two NUL-terminated strings
(each list holds the bytes before the terminator), as the byte-wise reference
implementation computes it: the difference of the first pair of bytes that
differ, read as `unsigned char`, the terminator counting as byte 0. -/
def strcmp : List Nat → List Nat → Int
  | [], [] => 0
  | [], b :: _ => 0 - (b : Int)
  | a :: _, [] => (a : Int)
  | a :: as, b :: bs => if a = b then strcmp as bs else (a : Int) - (b : Int)

/-- State of a `ListDataItem`: the bytes of `_text`, `_value`, `_isSelected`. -/
structure ListDataItem where
  text : List Nat
  value : Nat
  isSelected : Bool
deriving DecidableEq, Repr

/-- The method `ListDataItem::compareTo`: the `int` of `strcmp` returned as `s8`. -/
def ListDataItem.compareTo (a item : ListDataItem) : Int :=
  toS8 (strcmp a.text item.text)

/-- Byte-wise lexicographic order on texts, as the claim words it: `a` comes
before `b`. -/
def textBefore : List Nat → List Nat → Bool
  | [], [] => false
  | [], _ :: _ => true
  | _ :: _, [] => false
  | a :: as, b :: bs => if a < b then true else if b < a then false else textBefore as bs

/-- A text is a C string: every byte is in 1..255. -/
def isCString (t : List Nat) : Prop := ∀ c ∈ t, 1 ≤ c ∧ c ≤ 255

/-- A text of 7 bit characters: every byte is in 1..127. -/
def isAscii (t : List Nat) : Prop := ∀ c ∈ t, 1 ≤ c ∧ c ≤ 127

/-! ## multilinetextbox.cpp -/

/-- Modelled from the spec: the class `Text` (text.h, text.cpp are not among
the sources). It owns the character buffer and the derived line table, here the
list of wrapped lines, oldest first. -/
structure Text where
  chars : List Char
  lines : List (List Char)
deriving DecidableEq, Repr

namespace Text

/-- Modelled from the spec: `Text::getLineCount`, the number of lines of the
line table. -/
def getLineCount (t : Text) : Int := (t.lines.length : Int)

/-- Modelled from the spec: `Text::getLength`, the number of characters of the
buffer, a `u32`. -/
def getLength (t : Text) : Nat := t.chars.length % U32_MOD

/-- Modelled from the spec: `Text::setText`; the buffer is replaced and the
line table recomputed by the wrapping function `wrap` of the current font and
width. -/
def setText (wrap : List Char → List (List Char)) (_t : Text) (s : List Char) : Text :=
  { chars := s, lines := wrap s }

/-- Modelled from the spec: `Text::append`. -/
def append (wrap : List Char → List (List Char)) (t : Text) (s : List Char) : Text :=
  { chars := t.chars ++ s, lines := wrap (t.chars ++ s) }

/-- Modelled from the spec: `Text::insert`; past the end the text is appended. -/
def insert (wrap : List Char → List (List Char)) (t : Text) (s : List Char) (index : Nat) : Text :=
  { chars := t.chars.take index ++ s ++ t.chars.drop index,
    lines := wrap (t.chars.take index ++ s ++ t.chars.drop index) }

/-- Modelled from the spec: `Text::remove(startIndex, count)`. -/
def remove (wrap : List Char → List (List Char)) (t : Text) (startIndex count : Nat) : Text :=
  { chars := t.chars.take startIndex ++ t.chars.drop (startIndex + count),
    lines := wrap (t.chars.take startIndex ++ t.chars.drop (startIndex + count)) }

/-- Modelled from the spec: `Text::setFont` and `Text::setWidth` followed by
`Text::wrap`: the line table is recomputed by the new wrapping function. -/
def rewrap (wrap : List Char → List (List Char)) (t : Text) : Text :=
  { t with lines := wrap t.chars }

/-- Modelled from the spec: `Text::stripTopLines(lines)`, which drops the
oldest `lines` lines from the head of the text. -/
def stripTopLines (t : Text) (n : Int) : Text :=
  { chars := (t.lines.drop n.toNat).flatten, lines := t.lines.drop n.toNat }

end Text

/-- Lines ended by a newline character (no width limit): a wrapping function
of a text box wide enough that only newlines break lines. -/
def wrapNewlines : List Char → List (List Char)
  | [] => []
  | c :: cs =>
    if c = '\n' then [c] :: wrapNewlines cs
    else
      match wrapNewlines cs with
      | [] => [[c]]
      | l :: ls => (c :: l) :: ls

/-- State of a `MultiLineTextBox` as far as text, row limit and cursor go:
`_text`, `_maxRows`, `_visibleRows`, `_cursorPos`. Redrawing, scrolling of the
canvas and the raising of events do not touch these fields and are left out. -/
structure MultiLineTextBox where
  text : Text
  maxRows : Int
  visibleRows : Int
  cursorPos : Int
deriving DecidableEq, Repr

namespace MultiLineTextBox

/-- The block shared by setText, appendText, setFont and onResize:
`if (_text->getLineCount() > _maxRows) _text->stripTopLines(_text->getLineCount() - _maxRows);` -/
def ensureRows (b : MultiLineTextBox) : MultiLineTextBox :=
  if b.text.getLineCount > b.maxRows then
    { b with text := b.text.stripTopLines (b.text.getLineCount - b.maxRows) }
  else b

/-- The method `setText`. -/
def setText (wrap : List Char → List (List Char)) (b : MultiLineTextBox) (s : List Char) :
    MultiLineTextBox :=
  ensureRows { b with text := b.text.setText wrap s }

/-- The method `appendText`. -/
def appendText (wrap : List Char → List (List Char)) (b : MultiLineTextBox) (s : List Char) :
    MultiLineTextBox :=
  ensureRows { b with text := b.text.append wrap s }

/-- The method `setFont`; `wrap` is the wrapping function of the new font. -/
def setFont (wrap : List Char → List (List Char)) (b : MultiLineTextBox) : MultiLineTextBox :=
  ensureRows { b with text := b.text.rewrap wrap }

/-- The method `onResize`; `wrap` is the wrapping function of the new width and
`visibleRows` the result of `calculateVisibleRows` for the new height. -/
def onResize (wrap : List Char → List (List Char)) (b : MultiLineTextBox) (visibleRows : Int) :
    MultiLineTextBox :=
  ensureRows { b with text := b.text.rewrap wrap, visibleRows := visibleRows }

/-- The method `moveCursorToPosition(const s32 position)`. -/
def moveCursorToPosition (b : MultiLineTextBox) (position : Int) : MultiLineTextBox :=
  if position < 0 then { b with cursorPos := 0 }
  else
    let len := toS32 (b.text.getLength : Int)
    { b with cursorPos := if len > position then position else len }

/-- The method `insertText(text, const u32 index)`. -/
def insertText (wrap : List Char → List (List Char)) (b : MultiLineTextBox) (s : List Char)
    (index : Nat) : MultiLineTextBox :=
  let oldLen := b.text.getLength
  let b1 := { b with text := b.text.insert wrap s index }
  let insertLen := toU32 ((b1.text.getLength : Int) - (oldLen : Int))
  moveCursorToPosition b1 (toS32 (toU32 ((index : Int) + (insertLen : Int))))

end MultiLineTextBox

/-! ## slidervertical.cpp -/

/-- The struct `Rect`. -/
structure Rect where
  x : Int
  y : Int
  width : Int
  height : Int
deriving DecidableEq, Repr

/-- A child gadget as far as `click` goes: whether its own `click(x, y)`
accepts the point. -/
structure ChildGadget where
  click : Int → Int → Bool

/-- State of a `SliderVertical`: its screen position `getX()`, `getY()` and
size, the screen y of its parent, the enabled flag, the client rect, the screen
y and the height of the grip, the value range, page size and minimum grip
height, and the children `_gadgets` in z-order (the last one is on top). -/
structure SliderVertical where
  x : Int
  y : Int
  width : Int
  height : Int
  parentY : Int
  enabled : Bool
  rect : Rect
  gripY : Int
  gripHeight : Int
  minimumValue : Int
  maximumValue : Int
  pageSize : Int
  minimumGripHeight : Int
  gadgets : List ChildGadget

/-- What a call of `SliderVertical::click` did: the value returned, the
indices of the children that were offered the click, in the order of the
offers, the child left in `_clickedGadget`, and the y passed to
`_grip->moveTo` when the gutter branch ran. -/
structure ClickOutcome where
  result : Bool
  offered : List Nat
  clickedGadget : Option Nat
  movedTo : Option Int
deriving DecidableEq, Repr

namespace SliderVertical

/-- The method `getValue`: `int` arithmetic on the promoted 16 bit operands,
truncating division, result returned as `s16`. -/
def getValue (s : SliderVertical) : Except Fault Int :=
  let divisor := (s.rect.height - s.gripHeight) + 1
  if divisor = 0 then .error .divideByZero
  else
    .ok (toS16 (Int.tdiv (toS32 ((s.maximumValue - s.minimumValue) * (s.gripY - s.parentY))) divisor))

/-- The grip lies inside the gutter: its y relative to the slider is within
the client rect. -/
def gripInGutter (s : SliderVertical) : Prop :=
  s.rect.y ≤ s.gripY - s.y ∧ (s.gripY - s.y) + s.gripHeight ≤ s.rect.y + s.rect.height

/-- The grip offset that `getValue` measures: `_grip->getY() - _parent->getY()`. -/
def gripOffset (s : SliderVertical) : Int := s.gripY - s.parentY

/-- Modelled from the spec: `Gadget::checkCollision`, whether the bounds of
the gadget contain the point. -/
def checkCollision (s : SliderVertical) (x y : Int) : Bool :=
  decide (s.x ≤ x) && decide (x < s.x + s.width) && decide (s.y ≤ y) && decide (y < s.y + s.height)

/-- The loop of `click` over the children,
`for (s16 i = _gadgets.size() - 1; i > -1; i--) if (_gadgets[i]->click(x, y)) break;`
entered with counter `i = n - 1` (or finished, for `n = 0`). It yields the
indices offered, in order, and the child that accepted. A child that accepts
registers itself as the clicked gadget of its parent. -/
def clickChildren (gadgets : List ChildGadget) (x y : Int) :
    Nat → Except Fault (List Nat × Option Nat)
  | 0 => .ok ([], none)
  | i + 1 => do
    let g ← readSlot gadgets i
    if g.click x y then pure ([i], some i)
    else do
      let r ← clickChildren gadgets x y i
      pure (i :: r.1, r.2)

/-- The method `click`. -/
def click (s : SliderVertical) (x y : Int) : Except Fault ClickOutcome :=
  if s.enabled then
    if s.checkCollision x y then do
      let start := toS16 (((s.gadgets.length % U32_MOD + U32_MOD - 1) % U32_MOD : Nat) : Int)
      let r ← clickChildren s.gadgets x y (if start > -1 then start.toNat + 1 else 0)
      match r.2 with
      | some c => pure { result := true, offered := r.1, clickedGadget := some c, movedTo := none }
      | none =>
        let newGripY :=
          if y > s.gripY then toS16 ((s.gripY - s.y) + s.gripHeight)
          else toS16 ((s.gripY - s.y) - s.gripHeight)
        let newGripY1 :=
          if newGripY < s.rect.y then s.rect.y
          else if newGripY + s.gripHeight > s.rect.y + s.rect.height then
            toS16 ((s.rect.height - s.gripHeight) + 1)
          else newGripY
        pure { result := true, offered := r.1, clickedGadget := none, movedTo := some newGripY1 }
    else .ok { result := false, offered := [], clickedGadget := none, movedTo := none }
  else .ok { result := false, offered := [], clickedGadget := none, movedTo := none }

end SliderVertical

/-- The order of offers as the claim words it: the children are taken from the
top of the z-order down, and the walk stops at the first one that accepts. -/
def offerUntilAccepted (accepts : Nat → Bool) : List Nat → List Nat
  | [] => []
  | i :: rest => if accepts i then [i] else i :: offerUntilAccepted accepts rest

/-- The child that takes the click as the claim words it: the first one, from
the top of the z-order down, that accepts. -/
def firstAccepted (accepts : Nat → Bool) : List Nat → Option Nat
  | [] => none
  | i :: rest => if accepts i then some i else firstAccepted accepts rest

/-- Whether child `i` of the list accepts the point. -/
def childAccepts (gadgets : List ChildGadget) (x y : Int) (i : Nat) : Bool :=
  match gadgets[i]? with
  | some g => g.click x y
  | none => false

/-! ## scrollinglistbox.cpp -/

/-- The gadget an event came from, as `e.getSource()` is compared in the
handlers. -/
inductive EventSource where
  | null
  | listbox
  | scrollbar
  | other
deriving DecidableEq, Repr

/-- The list box child as the handlers use it: the raises-events flag, the
canvas y, the option height, and the record of the `jump(0, y)` calls it
received, each with the value the raises-events flag had at the call. -/
structure ListBoxPeer where
  raisesEvents : Bool
  canvasY : Int
  optionHeight : Int
  jumps : List (Int × Bool)
deriving DecidableEq, Repr

/-- The scrollbar child as the handlers use it: the raises-events flag, the
result of `getValue()`, and the record of the `setValue(v)` calls it received,
each with the value the raises-events flag had at the call. -/
structure ScrollbarPeer where
  raisesEvents : Bool
  value : Int
  setValues : List (Int × Bool)
deriving DecidableEq, Repr

/-- State of a `ScrollingListBox`: `_listbox` and `_scrollbar` (`none` for a
NULL pointer). -/
structure ScrollingListBox where
  listbox : Option ListBoxPeer
  scrollbar : Option ScrollbarPeer
deriving DecidableEq, Repr

namespace ListBoxPeer

/-- Modelled from the spec: `Gadget::setRaisesEvents`. -/
def setRaisesEvents (l : ListBoxPeer) (raises : Bool) : ListBoxPeer :=
  { l with raisesEvents := raises }

/-- Modelled from the spec: the call `jump(0, y)` on the list box, recorded
with the raises-events flag in force. -/
def jump (l : ListBoxPeer) (y : Int) : ListBoxPeer :=
  { l with jumps := l.jumps ++ [(y, l.raisesEvents)] }

end ListBoxPeer

namespace ScrollbarPeer

/-- Modelled from the spec: `Gadget::setRaisesEvents`. -/
def setRaisesEvents (b : ScrollbarPeer) (raises : Bool) : ScrollbarPeer :=
  { b with raisesEvents := raises }

/-- Modelled from the spec: the call `setValue(v)` on the scrollbar (its
parameter is an `s16`), recorded with the raises-events flag in force. -/
def setValue (b : ScrollbarPeer) (v : Int) : ScrollbarPeer :=
  { b with setValues := b.setValues ++ [(toS16 v, b.raisesEvents)] }

end ScrollbarPeer

namespace ScrollingListBox

/-- The method `handleValueChangeEvent`. -/
def handleValueChangeEvent (s : ScrollingListBox) (source : EventSource) : ScrollingListBox :=
  match source, s.scrollbar with
  | .scrollbar, some sb =>
    match s.listbox with
    | some lb =>
      let lb1 := lb.setRaisesEvents false
      let lb2 := lb1.jump (0 - (sb.value * lb1.optionHeight))
      let lb3 := lb2.setRaisesEvents true
      { s with listbox := some lb3 }
    | none => s
  | _, _ => s

/-- The fixed point computation of `handleScrollEvent`:
`s32 value = ((0 - canvasY) << 16) / optionHeight; value += value & 0x8000; value >>= 16;` -/
def scrollValue (canvasY optionHeight : Int) : Except Fault Int :=
  if optionHeight = 0 then .error .divideByZero
  else
    let value := Int.tdiv (toS32 ((0 - canvasY) * 65536)) optionHeight
    let value1 := toS32 (value + Int.land value 32768)
    .ok (value1 / 65536)

/-- The method `handleScrollEvent`. -/
def handleScrollEvent (s : ScrollingListBox) (source : EventSource) :
    Except Fault ScrollingListBox :=
  match source, s.listbox with
  | .listbox, some lb =>
    match s.scrollbar with
    | some sb => do
      let sb1 := sb.setRaisesEvents false
      let value ← scrollValue lb.canvasY lb.optionHeight
      let sb2 := sb1.setValue value
      let sb3 := sb2.setRaisesEvents true
      pure { s with scrollbar := some sb3 }
    | none => .ok s
  | _, _ => .ok s

end ScrollingListBox

/-! ## multilinetextbox.cpp: drawing, pages, construction -/

namespace Text

/-- Modelled from the spec: `Text::getLineStartIndex`, the index in the buffer
of the first character of a row. -/
def getLineStartIndex (t : Text) (row : Nat) : Nat := (t.lines.take row).flatten.length

/-- The row of a list of lines that holds character index `index`; an index
past the last character belongs to the last row. -/
def lineContaining : List (List Char) → Nat → Nat
  | [], _ => 0
  | [_], _ => 0
  | l :: l2 :: rest, index =>
    if index < l.length then 0 else lineContaining (l2 :: rest) (index - l.length) + 1

/-- Modelled from the spec: `Text::getLineContainingCharIndex`. -/
def getLineContainingCharIndex (t : Text) (index : Nat) : Nat := lineContaining t.lines index

/-- Modelled from the spec: `Text::getLineTrimmedLength`, the length of a row
without its trailing white space. -/
def getLineTrimmedLength (t : Text) (row : Nat) : Nat :=
  (((t.lines.getD row []).reverse.dropWhile Char.isWhitespace).length)

end Text

/-- Modelled from the spec: `FontBase::getStringWidth(text, startIndex, length)`,
the sum of the widths `getCharWidth` of the characters of the stretch. -/
def getStringWidth (charWidth : Char → Nat) (t : Text) (startIndex length : Nat) : Nat :=
  (((t.chars.drop startIndex).take length).map charWidth).sum

/-- The enum `TextAlignmentHoriz`. -/
inductive TextAlignmentHoriz where
  | centre
  | left
  | right
deriving DecidableEq, Repr

/-- What drawing a `MultiLineTextBox` needs beside the text and the cursor: the
client rect, `_padding`, `_hAlignment`, the canvas offset `_canvasX`, the
character widths of the font (`getCharWidth`) and `_showCursor`. -/
structure TextBoxLayout where
  rect : Rect
  padding : Int
  hAlignment : TextAlignmentHoriz
  canvasX : Int
  charWidth : Char → Nat
  showCursor : Bool

/-- What `drawCursor` hands to `drawFilledXORRect`: the row of the cursor and
the `u16` x co-ordinate `cursorX`. -/
structure CursorPlacement where
  row : Nat
  x : Int
deriving DecidableEq, Repr

namespace MultiLineTextBox

/-- The method `drawText(port, topRow, bottomRow)`: the rows, in the order in
which they are drawn, that it passes to `getLineTrimmedLength` and
`getLineStartIndex`. The loop state is `currentRow` and the rows drawn so far. -/
def drawText (fuel : Nat) (b : MultiLineTextBox) (topRow bottomRow : Int) :
    Except Fault (List Int) :=
  if topRow < 0 ∧ bottomRow < 0 then .ok []
  else if bottomRow ≥ b.text.getLineCount ∧ topRow ≥ b.text.getLineCount then .ok []
  else
    let topRow1 := if topRow < 0 then 0 else topRow
    let bottomRow1 := if bottomRow ≥ b.text.getLineCount then b.text.getLineCount - 1 else bottomRow
    match whileLoop (fun st : Int × List Int => decide (st.1 ≤ bottomRow1))
        (fun st => .ok (toS32 (st.1 + 1), st.2 ++ [st.1])) fuel (topRow1, []) with
    | .ok st => .ok st.2
    | .error e => .error e

/-- The method `getRowX(row)`: row length and pixel width are held in `u8`
variables and the result is a `u8`. -/
def getRowX (lay : TextBoxLayout) (t : Text) (row : Nat) : Int :=
  let rowLength := toU8 (t.getLineTrimmedLength row)
  let rowPixelWidth := toU8 (getStringWidth lay.charWidth t (t.getLineStartIndex row) rowLength.toNat)
  match lay.hAlignment with
  | .centre => toU8 (((lay.rect.width - lay.padding * 2) - rowPixelWidth) / 2)
  | .left => toU8 lay.padding
  | .right => toU8 (lay.rect.width - rowPixelWidth - lay.padding)

/-- The loop of `drawCursor`,
`for (s32 i = 0; i < cursorLineOffset; ++i) { cursorX += getCharWidth(iterator->getCodePoint()); iterator->moveToNext(); }`
with the rounds still to run, the position of the iterator and the `u16`
`cursorX`. -/
def sumCursorWidths (charWidth : Char → Nat) (chars : List Char) :
    Nat → Nat → Int → Except Fault Int
  | 0, _, cursorX => .ok cursorX
  | n + 1, pos, cursorX =>
    match readSlot chars pos with
    | .ok c => sumCursorWidths charWidth chars n (pos + 1) (toU16 (cursorX + (charWidth c : Int)))
    | .error e => .error e

/-- The method `drawCursor`: the placement of the cursor, `none` when the
cursor is not shown. -/
def drawCursor (lay : TextBoxLayout) (b : MultiLineTextBox) :
    Except Fault (Option CursorPlacement) :=
  if lay.showCursor then
    if b.cursorPos > 0 then
      let cursorRow := b.text.getLineContainingCharIndex (toU32 b.cursorPos)
      let cursorLineOffset := toU8 (b.cursorPos - (b.text.getLineStartIndex cursorRow : Int))
      match sumCursorWidths lay.charWidth b.text.chars cursorLineOffset.toNat
          (b.text.getLineStartIndex cursorRow) 0 with
      | .ok cursorX =>
        .ok (some { row := cursorRow, x := toU16 (cursorX + (getRowX lay b.text cursorRow + lay.canvasX)) })
      | .error e => .error e
    else .ok (some { row := 0, x := toU16 (0 + (getRowX lay b.text 0 + lay.canvasX)) })
  else .ok none

/-- The method `calculateVisibleRows`:
`_visibleRows = (rect.height - (_padding << 1)) / _text->getLineHeight();` -/
def calculateVisibleRows (rectHeight padding lineHeight : Int) : Except Fault Int :=
  if lineHeight = 0 then .error .divideByZero
  else .ok (Int.tdiv (rectHeight - padding * 2) lineHeight)

/-- The constructor, for a client rect of height `rectHeight`, a font with
line height `lineHeight` and the arguments `text` and `maxRows`. -/
def construct (wrap : List Char → List (List Char)) (rectHeight lineHeight : Int)
    (text : List Char) (maxRows : Int) : Except Fault MultiLineTextBox :=
  match calculateVisibleRows rectHeight 2 lineHeight with
  | .ok visibleRows =>
    .ok (setText wrap
      { text := { chars := [], lines := wrap [] },
        maxRows := if maxRows = 0 then visibleRows + 1 else maxRows,
        visibleRows := visibleRows, cursorPos := 0 } text)
  | .error e => .error e

/-- The method `getPageCount`: `u16 pages = lineCount / _visibleRows; return pages + 1;` -/
def getPageCount (b : MultiLineTextBox) : Int :=
  if b.visibleRows > 0 then toU16 (toU16 (Int.tdiv b.text.getLineCount b.visibleRows) + 1)
  else 1

end MultiLineTextBox

/-- The rows `lo, lo + 1, .., hi`, each once, in ascending order (none when
`hi < lo`). -/
def rowInterval (lo hi : Int) : List Int :=
  List.map (fun k : Nat => lo + (k : Int)) (List.range (hi + 1 - lo).toNat)

/-- The sum of the font widths of the characters with index from `start` up
to, but not including, `stop`. -/
def widthBetween (charWidth : Char → Nat) (chars : List Char) (start stop : Nat) : Int :=
  ((((chars.drop start).take (stop - start)).map charWidth).sum : Nat)

/-! ## slidervertical.cpp: resizeGrip and setValue -/

namespace SliderVertical

/-- The method `resizeGrip`. `abs(max - min) - _pageSize << 8` shifts the
difference; the ratio is a `u32`, the quotient `overspill / ratio` an unsigned
division, and the new height an `s32`. The call `_grip->resize(rect.width,
newHeight)` is modelled from the spec as setting the height of the grip (a
`u16`); it is made only when there is overspill. -/
def resizeGrip (s : SliderVertical) : Except Fault SliderVertical :=
  let span : Int := ((s.maximumValue - s.minimumValue).natAbs : Int)
  let overspill := toS32 ((span - s.pageSize) * 256)
  if overspill > 0 then
    if s.rect.height = 0 then .error .divideByZero
    else
      let ratio := toU32 (Int.tdiv (span * 256) s.rect.height)
      if ratio = 0 then .error .divideByZero
      else
        let newHeight := toS32 (s.rect.height - ((toU32 overspill / ratio : Nat) : Int))
        let newHeight1 := if newHeight < s.minimumGripHeight then s.minimumGripHeight else newHeight
        let newHeight2 := if newHeight1 > s.rect.height then s.rect.height else newHeight1
        .ok { s with gripHeight := toU16 newHeight2 }
  else .ok s

/-- The method `setValue(const s16 value)`: the y passed to `_grip->moveTo(0, y)`
(an `s16` parameter), `none` when the grip is not moved. -/
def setValue (s : SliderVertical) (value : Int) : Except Fault (Option Int) :=
  let divisor := (s.rect.height - s.gripHeight) + 1
  if divisor = 0 then .error .divideByZero
  else
    let pixelValue := toS32 (Int.tdiv ((s.maximumValue - s.minimumValue) * 256) divisor)
    if pixelValue > 0 then
      let newGripY := toS16 (Int.tdiv (value * 256) pixelValue)
      let newGripY1 :=
        if newGripY + s.gripHeight > s.rect.y + s.rect.height then
          toS16 ((s.rect.y + s.rect.height) - s.gripHeight)
        else newGripY
      .ok (some (toS16 ((newGripY1.natAbs : Nat) : Int)))
    else .ok none

end SliderVertical

/-! ## calendar.cpp -/

/-- Modelled from the spec: the constant CALENDAR_ROWS of calendar.h. -/
def CALENDAR_ROWS : Nat := 6

/-- Modelled from the spec: the constant CALENDAR_COLS of calendar.h. -/
def CALENDAR_COLS : Nat := 7

/-- What one round of `populateGUI` does to a day button: the index of the
button in `_gadgets`, whether it is enabled or disabled, whether its outline is
set to OUTLINE_IN (the selected day) instead of OUTLINE_CLICK_DEPENDENT, and
the number printed into its text. -/
structure DayButtonWrite where
  index : Nat
  enabled : Bool
  selected : Bool
  label : Nat
deriving DecidableEq, Repr

/-- What `populateGUI` reads: the refcon of every gadget of `_gadgets`,
`_decorationCount`, the week day of the first day of the visible month, the
days of that month and of the month before it, and the day of `_date` when
`_date` lies in the visible month and year. -/
structure Calendar where
  refcons : List Nat
  decorationCount : Nat
  weekDay : Nat
  monthDays : Nat
  previousMonthDays : Nat
  selectedDay : Option Nat
deriving DecidableEq, Repr

/-- The loop variables of `populateGUI`, all `u8`, and the writes made so
far. -/
structure PopulateState where
  startDay : Nat
  updatedDays : Nat
  buttonIndex : Nat
  writes : List DayButtonWrite
deriving DecidableEq, Repr

namespace Calendar

/-- The gadgets that `buildGUI` adds, by refcon: two arrows, the month label
and seven day labels, which keep the refcon 0 of a new gadget, then
CALENDAR_ROWS * CALENDAR_COLS day buttons with the refcons 1, 2, ... -/
def buildGUI : List Nat :=
  List.replicate 10 0 ++ List.map (fun k : Nat => k + 1) (List.range (CALENDAR_ROWS * CALENDAR_COLS))

/-- One round of the search for the first button: the state is the counter
`i` and the index found. -/
def locateStep (refcons : List Nat) (st : Nat × Option Nat) : Except Fault (Nat × Option Nat) :=
  match readSlot refcons st.1 with
  | .ok refcon => if refcon > 0 then .ok (st.1, some st.1) else .ok ((st.1 + 1) % 256, st.2)
  | .error e => .error e

/-- The loop
`for (u8 i = _decorationCount; i < _gadgets.size(); i++) if (_gadgets[i]->getRefcon() > 0) { buttonIndex = i; break; }`
with `buttonIndex` 0 when no button is found. -/
def locateFirstButton (fuel : Nat) (refcons : List Nat) (decorationCount : Nat) :
    Except Fault Nat :=
  match whileLoop (fun st : Nat × Option Nat => st.2.isNone && decide (st.1 < refcons.length))
      (locateStep refcons) fuel (decorationCount % 256, none) with
  | .ok st => .ok (st.2.getD 0)
  | .error e => .error e

/-- The effect of one round of a day loop on the loop variables, for a button
that exists: the write, then `startDay++; updatedDays++; buttonIndex++`. -/
def advance (enabled : Bool) (selectedDay : Option Nat) (st : PopulateState) : PopulateState :=
  { startDay := (st.startDay + 1) % 256,
    updatedDays := (st.updatedDays + 1) % 256,
    buttonIndex := (st.buttonIndex + 1) % 256,
    writes := st.writes ++
      [{ index := st.buttonIndex, enabled := enabled,
         selected := enabled && decide (selectedDay = some st.startDay), label := st.startDay }] }

/-- One round of a day loop: `button = (Button*)_gadgets[buttonIndex]`, then
the write and the increments. -/
def writeButton (gadgetCount : Nat) (enabled : Bool) (selectedDay : Option Nat)
    (st : PopulateState) : Except Fault PopulateState :=
  if st.buttonIndex < gadgetCount then .ok (advance enabled selectedDay st)
  else .error .outOfBounds

/-- The method `populateGUI`, as far as the grid of days goes. -/
def populateGUI (fuel : Nat) (c : Calendar) : Except Fault PopulateState :=
  match locateFirstButton fuel c.refcons c.decorationCount with
  | .error e => .error e
  | .ok buttonIndex =>
    let maxDays := (CALENDAR_ROWS * CALENDAR_COLS) % 256
    let st0 : PopulateState :=
      { startDay := 1, updatedDays := 0, buttonIndex := buttonIndex, writes := [] }
    let previous : Except Fault PopulateState :=
      if c.weekDay ≠ 0 then
        match whileLoop (fun st : PopulateState => decide (st.startDay ≤ c.previousMonthDays))
            (writeButton c.refcons.length false none) fuel
            { st0 with
              startDay := (toU8 (((c.previousMonthDays : Int) - (c.weekDay : Int)) + 1)).toNat } with
        | .ok st => .ok { st with startDay := 1 }
        | .error e => .error e
      else .ok st0
    match previous with
    | .error e => .error e
    | .ok st1 =>
      match whileLoop (fun st : PopulateState => decide (st.startDay ≤ c.monthDays))
          (writeButton c.refcons.length true c.selectedDay) fuel st1 with
      | .error e => .error e
      | .ok st2 =>
        whileLoop (fun st : PopulateState => decide (st.updatedDays < maxDays))
          (writeButton c.refcons.length false none) fuel { st2 with startDay := 1 }

end Calendar

/-- The writes of a run of `count` buttons from button index `first` on,
labelled `firstLabel`, `firstLabel + 1`, ... -/
def dayWrites (first firstLabel count : Nat) (enabled : Bool) (selectedDay : Option Nat) :
    List DayButtonWrite :=
  List.map (fun j : Nat =>
    { index := first + j, enabled := enabled,
      selected := enabled && decide (selectedDay = some (firstLabel + j)),
      label := firstLabel + j }) (List.range count)

/-- The loop variables after `k` rounds of a day loop in which no `u8` wraps:
each counter has advanced by `k` and `k` buttons have been written. -/
def afterRounds (enabled : Bool) (selectedDay : Option Nat) (st : PopulateState) (k : Nat) :
    PopulateState :=
  { startDay := st.startDay + k, updatedDays := st.updatedDays + k,
    buttonIndex := st.buttonIndex + k,
    writes := st.writes ++ dayWrites st.buttonIndex st.startDay k enabled selectedDay }

/-! ## dynamicarray.h: loop counters and slot accesses -/

namespace DynamicArray

/-- The values that the counter `i` of the shifting loop of `insert` takes, one
for each evaluation of the loop test, up to the round that ends the loop,
faults or runs out of fuel. -/
def insertShiftCounters {α : Type} (index : Nat) : Nat → Nat → List α → List Nat
  | 0, _, _ => []
  | fuel + 1, i, data =>
    if i ≥ index then
      match readSlot data i with
      | .ok v =>
        match writeSlot data ((i + 1) % U32_MOD) v with
        | .ok data1 => i :: insertShiftCounters index fuel ((i + U32_MOD - 1) % U32_MOD) data1
        | .error _ => [i]
      | .error _ => [i]
    else [i]

/-- The slots that the shifting loop of `erase` accesses, in order: in each
round the slot read, `i + 1`, then (when the read is inside the block) the slot
written, `i`. -/
def eraseShiftAccesses {α : Type} (size : Nat) : Nat → Nat → List α → List Nat
  | 0, _, _ => []
  | fuel + 1, i, data =>
    if i < size then
      match readSlot data ((i + 1) % U32_MOD) with
      | .ok v =>
        match writeSlot data i v with
        | .ok data1 =>
          (i + 1) % U32_MOD :: i :: eraseShiftAccesses size fuel ((i + 1) % U32_MOD) data1
        | .error _ => [(i + 1) % U32_MOD, i]
      | .error _ => [(i + 1) % U32_MOD]
    else []

end DynamicArray

/-! ## multilinetextbox.cpp: removing text and keys -/

/-- The key codes that `onKeyPress` and `onKeyRepeat` tell apart. -/
inductive KeyCode where
  | left
  | right
  | other
deriving DecidableEq, Repr

/-- A `WoopsiKey` as `processKey` reads it: whether its type is KEY_BACKSPACE,
and its value. -/
structure WoopsiKey where
  isBackspace : Bool
  value : Char
deriving DecidableEq, Repr

namespace Text

/-- Modelled from the spec: `Text::remove(startIndex)`, which removes the
characters from `startIndex` to the end of the text. -/
def removeFrom (wrap : List Char → List (List Char)) (t : Text) (startIndex : Nat) : Text :=
  { chars := t.chars.take startIndex, lines := wrap (t.chars.take startIndex) }

end Text

namespace MultiLineTextBox

/-- The method `removeText(const u32 startIndex)`. -/
def removeTextFrom (wrap : List Char → List (List Char)) (b : MultiLineTextBox)
    (startIndex : Nat) : MultiLineTextBox :=
  moveCursorToPosition { b with text := b.text.removeFrom wrap startIndex }
    (toS32 (startIndex : Int))

/-- The method `removeText(const u32 startIndex, const u32 count)`. -/
def removeText (wrap : List Char → List (List Char)) (b : MultiLineTextBox)
    (startIndex count : Nat) : MultiLineTextBox :=
  moveCursorToPosition { b with text := b.text.remove wrap startIndex count }
    (toS32 (startIndex : Int))

/-- The method `insertTextAtCursor`: `insertText(text, getCursorPosition())`,
the cursor position passed as a `u32`. -/
def insertTextAtCursor (wrap : List Char → List (List Char)) (b : MultiLineTextBox)
    (s : List Char) : MultiLineTextBox :=
  insertText wrap b s (toU32 b.cursorPos)

/-- The method `onKeyPress`. -/
def onKeyPress (b : MultiLineTextBox) (keyCode : KeyCode) : MultiLineTextBox :=
  match keyCode with
  | .left => if b.cursorPos > 0 then moveCursorToPosition b (toS32 (b.cursorPos - 1)) else b
  | .right =>
    if b.cursorPos < toS32 (b.text.getLength : Int) then
      moveCursorToPosition b (toS32 (b.cursorPos + 1))
    else b
  | .other => b

/-- The method `onKeyRepeat`. -/
def onKeyRepeat (b : MultiLineTextBox) (keyCode : KeyCode) : MultiLineTextBox :=
  match keyCode with
  | .left => if b.cursorPos > 0 then moveCursorToPosition b (toS32 (b.cursorPos - 1)) else b
  | .right =>
    if b.cursorPos < toS32 (b.text.getLength : Int) then
      moveCursorToPosition b (toS32 (b.cursorPos + 1))
    else b
  | .other => b

/-- The method `processKey`. -/
def processKey (wrap : List Char → List (List Char)) (b : MultiLineTextBox) (key : WoopsiKey) :
    MultiLineTextBox :=
  if key.isBackspace then
    if b.cursorPos > 0 then removeText wrap b (toU32 (b.cursorPos - 1)) 1 else b
  else if key.value ≠ Char.ofNat 0 then insertTextAtCursor wrap b [key.value]
  else b

/-- The cursor invariant: `0 <= _cursorPos <= _text->getLength()`. -/
def cursorInText (b : MultiLineTextBox) : Prop :=
  0 ≤ b.cursorPos ∧ b.cursorPos ≤ (b.text.getLength : Int)

end MultiLineTextBox

/-! ## Inputs used in the evaluations below -/

/-- A slider placed at the origin of its parent, with value range 10..20, a
98 pixel gutter starting at y = 1 and a 10 pixel grip at the top of it. -/
def sliderTenToTwenty : SliderVertical :=
  { x := 0, y := 0, width := 10, height := 100, parentY := 0, enabled := true,
    rect := { x := 1, y := 1, width := 8, height := 98 },
    gripY := 1, gripHeight := 10, minimumValue := 10, maximumValue := 20,
    pageSize := 1, minimumGripHeight := 5, gadgets := [] }

/-- A slider with value range 0..50 whose 10 pixel grip sits at the bottom of
the 98 pixel gutter. -/
def sliderGripAtBottom : SliderVertical :=
  { x := 0, y := 0, width := 10, height := 100, parentY := 0, enabled := true,
    rect := { x := 1, y := 1, width := 8, height := 98 },
    gripY := 89, gripHeight := 10, minimumValue := 0, maximumValue := 50,
    pageSize := 1, minimumGripHeight := 5, gadgets := [] }

/-- The slider `sliderGripAtBottom` moved 50 pixels down inside its parent:
`getY()` is 50, `_parent->getY()` is 0, and the grip, at screen y 139, still
sits at the bottom of the gutter. -/
def sliderBelowParentTop : SliderVertical :=
  { x := 0, y := 50, width := 10, height := 100, parentY := 0, enabled := true,
    rect := { x := 1, y := 1, width := 8, height := 98 },
    gripY := 139, gripHeight := 10, minimumValue := 0, maximumValue := 50,
    pageSize := 1, minimumGripHeight := 5, gadgets := [] }

/-- A child gadget that accepts the clicks with `y >= 50`. -/
def lowerHalfChild : ChildGadget := { click := fun _ y => decide (50 ≤ y) }

/-- A child gadget that accepts no click. -/
def deafChild : ChildGadget := { click := fun _ _ => false }

/-- An enabled slider with three children: child 1 accepts clicks in the lower
half, children 0 and 2 accept none. -/
def sliderThreeChildren : SliderVertical :=
  { x := 0, y := 0, width := 10, height := 100, parentY := 0, enabled := true,
    rect := { x := 1, y := 1, width := 8, height := 98 },
    gripY := 1, gripHeight := 10, minimumValue := 0, maximumValue := 50,
    pageSize := 1, minimumGripHeight := 5, gadgets := [deafChild, lowerHalfChild, deafChild] }

/-- A scrolling list box whose list box has had its events switched off by
its owner (`setRaisesEvents(false)`), with options 10 pixels high, and whose
scrollbar stands at value 3. -/
def quietListBox : ScrollingListBox :=
  { listbox := some { raisesEvents := false, canvasY := 0, optionHeight := 10, jumps := [] },
    scrollbar := some { raisesEvents := true, value := 3, setValues := [] } }

/-- A scrolling list box scrolled down by 25 pixels, with options 10 pixels
high, both children raising events. -/
def scrolledListBox : ScrollingListBox :=
  { listbox := some { raisesEvents := true, canvasY := -25, optionHeight := 10, jumps := [] },
    scrollbar := some { raisesEvents := true, value := 0, setValues := [] } }

/-- A text box holding the three lines "a", "b", "c". -/
def threeLineBox : MultiLineTextBox :=
  { text := { chars := "a\nb\nc\n".toList, lines := wrapNewlines "a\nb\nc\n".toList },
    maxRows := 10, visibleRows := 5, cursorPos := 0 }

/-- A text box that shows 5 rows and holds exactly 5 lines. -/
def fullPageBox : MultiLineTextBox :=
  { text := { chars := "1\n2\n3\n4\n5\n".toList, lines := wrapNewlines "1\n2\n3\n4\n5\n".toList },
    maxRows := 10, visibleRows := 5, cursorPos := 0 }

/-- A left aligned layout, 300 pixels wide, with a font whose characters are
all 1 pixel wide, the cursor shown. -/
def thinFontLayout : TextBoxLayout :=
  { rect := { x := 1, y := 1, width := 300, height := 98 }, padding := 2,
    hAlignment := TextAlignmentHoriz.left, canvasX := 0, charWidth := fun _ => 1,
    showCursor := true }

/-- A text box whose only row holds 256 characters, the cursor at its end. -/
def longRowBox : MultiLineTextBox :=
  { text := { chars := List.replicate 256 'a', lines := [List.replicate 256 'a'] },
    maxRows := 10, visibleRows := 5, cursorPos := 256 }

/-- A text box holding the rows "ab" and "cd", the cursor before the "d". -/
def twoRowBox : MultiLineTextBox :=
  { text := { chars := "ab\ncd".toList, lines := wrapNewlines "ab\ncd".toList },
    maxRows := 10, visibleRows := 5, cursorPos := 4 }

/-- A slider whose grip was shrunk to 20 pixels earlier and whose content, one
value with a page size of 1, now fits the page. -/
def shrunkGripSlider : SliderVertical :=
  { x := 0, y := 0, width := 10, height := 100, parentY := 0, enabled := true,
    rect := { x := 1, y := 1, width := 8, height := 98 },
    gripY := 1, gripHeight := 20, minimumValue := 0, maximumValue := 1,
    pageSize := 1, minimumGripHeight := 5, gadgets := [] }

/-- A slider with a gutter 257 pixels high, value range 0..1 and page size 0. -/
def tallGutterSlider : SliderVertical :=
  { x := 0, y := 0, width := 10, height := 259, parentY := 0, enabled := true,
    rect := { x := 1, y := 1, width := 8, height := 257 },
    gripY := 1, gripHeight := 257, minimumValue := 0, maximumValue := 1,
    pageSize := 0, minimumGripHeight := 5, gadgets := [] }

/-- A slider with value range 0..100, a gutter 109 pixels high starting at
y = 1 and a 10 pixel grip, so that one value is one pixel of grip travel. -/
def sliderHundred : SliderVertical :=
  { x := 0, y := 0, width := 10, height := 111, parentY := 0, enabled := true,
    rect := { x := 1, y := 1, width := 8, height := 109 },
    gripY := 1, gripHeight := 10, minimumValue := 0, maximumValue := 100,
    pageSize := 10, minimumGripHeight := 5, gadgets := [] }

/-- A borderless slider (client rect at 0, 0) 100 pixels high with no child
taking clicks, its 10 pixel grip standing at y = 85. -/
def borderlessSlider : SliderVertical :=
  { x := 0, y := 0, width := 10, height := 100, parentY := 0, enabled := true,
    rect := { x := 0, y := 0, width := 10, height := 100 },
    gripY := 85, gripHeight := 10, minimumValue := 0, maximumValue := 50,
    pageSize := 1, minimumGripHeight := 5, gadgets := [] }

/-- The calendar showing a month of 30 days that starts on week day 3, after
a month of 31 days, with day 15 selected. -/
def calendarThirtyDays : Calendar :=
  { refcons := Calendar.buildGUI, decorationCount := 0, weekDay := 3, monthDays := 30,
    previousMonthDays := 31, selectedDay := some 15 }

/-- A slider whose client rect has height 0 (a slider 2 pixels high with its
border), with value range 0..5 and page size 1. -/
def flatGutterSlider : SliderVertical :=
  { x := 0, y := 0, width := 10, height := 2, parentY := 0, enabled := true,
    rect := { x := 1, y := 1, width := 8, height := 0 },
    gripY := 1, gripHeight := 0, minimumValue := 0, maximumValue := 5,
    pageSize := 1, minimumGripHeight := 5, gadgets := [] }

/-- A slider with a gutter 600 pixels high, value range 0..2 and page size 1. -/
def longGutterSlider : SliderVertical :=
  { x := 0, y := 0, width := 10, height := 602, parentY := 0, enabled := true,
    rect := { x := 1, y := 1, width := 8, height := 600 },
    gripY := 1, gripHeight := 600, minimumValue := 0, maximumValue := 2,
    pageSize := 1, minimumGripHeight := 5, gadgets := [] }

/-- A text box holding "hello" with the cursor moved to its end, index 5. -/
def helloBox : MultiLineTextBox :=
  MultiLineTextBox.moveCursorToPosition
    (MultiLineTextBox.setText wrapNewlines
      { text := { chars := [], lines := [] }, maxRows := 10, visibleRows := 5, cursorPos := 0 }
      "hello".toList) 5

/-- A text box limited to one row that holds the line "aaaa" with the cursor
at its end, index 5. -/
def oneRowBox : MultiLineTextBox :=
  MultiLineTextBox.moveCursorToPosition
    (MultiLineTextBox.setText wrapNewlines
      { text := { chars := [], lines := [] }, maxRows := 1, visibleRows := 1, cursorPos := 0 }
      "aaaa\n".toList) 5

/-! # Theorems -/

/-! ## Heap block lemmas -/

theorem readSlot_of_lt {α : Type} (data : List α) (i : Nat) (h : i < data.length) :
    readSlot data i = .ok (data.get ⟨i, h⟩) := by
  simp [readSlot, List.getElem?_eq_getElem h]

theorem readSlot_of_ge {α : Type} (data : List α) (i : Nat) (h : data.length ≤ i) :
    readSlot data i = .error .outOfBounds := by
  simp [readSlot, List.getElem?_eq_none h]

theorem writeSlot_of_lt {α : Type} (data : List α) (i : Nat) (v : α) (h : i < data.length) :
    writeSlot data i v = .ok (data.set i v) := by
  simp [writeSlot, h]

theorem take_succ_set {α : Type} (l : List α) (n : Nat) (v : α) (h : n < l.length) :
    (l.set n v).take (n + 1) = l.take n ++ [v] := by
  rw [List.take_succ, List.set_take, List.set_eq_of_length_le (by simp)]
  simp [List.getElem?_set, h]

namespace DynamicArray

variable {α : Type}

/-! ## push_back -/

theorem resize_of_not_full [Inhabited α] (d : DynamicArray α) (h : d.reservedSize ≠ d.size) :
    d.resize = .ok d := by
  simp [resize, h]

theorem resize_of_full [Inhabited α] (d : DynamicArray α) (hwf : d.WF)
    (h : d.reservedSize = d.size) (hroom : d.size + DYNAMIC_ARRAY_SIZE < U32_MOD) :
    d.resize = .ok { data := d.data ++ List.replicate DYNAMIC_ARRAY_SIZE default,
                     size := d.size, reservedSize := d.reservedSize + DYNAMIC_ARRAY_SIZE } := by
  obtain ⟨hlen, _, _⟩ := hwf
  have hmod : (d.reservedSize + DYNAMIC_ARRAY_SIZE) % U32_MOD = d.reservedSize + DYNAMIC_ARRAY_SIZE :=
    Nat.mod_eq_of_lt (by omega)
  have htake : List.take d.reservedSize d.data = d.data := List.take_of_length_le (by omega)
  simp only [resize, h, if_true]
  rw [← h, hmod, htake]
  simp [hlen]

/-- C7: `push_back(v)` on an array holding `e0..e(n-1)` returns with an array
of size `n + 1` holding `e0..e(n-1), v` (every old element keeps its index and
`v` is at index `n`), also when the block is full and is regrown by `resize()`
before the write. -/
theorem push_back_spec [Inhabited α] (d : DynamicArray α) (v : α) (hwf : d.WF)
    (hroom : d.size + DYNAMIC_ARRAY_SIZE < U32_MOD) :
    ∃ d1, d.push_back v = .ok d1 ∧ d1.size = d.size + 1 ∧ d1.toList = d.toList ++ [v] ∧
      (∀ i, i < d.size → d1.data[i]? = d.data[i]?) ∧ d1.data[d.size]? = some v ∧ d1.WF ∧
      (d.size = d.reservedSize → d1.reservedSize = d.reservedSize + DYNAMIC_ARRAY_SIZE) := by
  have hwf0 := hwf
  obtain ⟨hlen, hsz, hres⟩ := hwf
  have h16 : DYNAMIC_ARRAY_SIZE = 16 := rfl
  have hmod : (d.size + 1) % U32_MOD = d.size + 1 := Nat.mod_eq_of_lt (by omega)
  by_cases hfull : d.reservedSize = d.size
  · have hlt : d.size < (d.data ++ List.replicate DYNAMIC_ARRAY_SIZE (default : α)).length := by
      rw [List.length_append, List.length_replicate, h16]; omega
    refine ⟨{ data := (d.data ++ List.replicate DYNAMIC_ARRAY_SIZE default).set d.size v,
              size := d.size + 1, reservedSize := d.reservedSize + DYNAMIC_ARRAY_SIZE }, ?_, rfl, ?_, ?_, ?_, ?_, ?_⟩
    · simp only [push_back, resize_of_full d hwf0 hfull hroom, bind, Except.bind, pure, Except.pure]
      rw [writeSlot_of_lt _ _ _ hlt, hmod]
    · simp only [toList]
      rw [take_succ_set _ _ _ hlt, List.take_append_of_le_length (by omega)]
    · intro i hi
      have hne : d.size ≠ i := by omega
      simp only [List.getElem?_set, hne, if_false]
      rw [List.getElem?_append_left (by omega)]
    · show ((d.data ++ List.replicate DYNAMIC_ARRAY_SIZE default).set d.size v)[d.size]? = some v
      rw [List.getElem?_set, if_pos rfl, if_pos hlt]
    · refine ⟨?_, ?_, ?_⟩
      · simp [hlen]
      · show d.size + 1 ≤ d.reservedSize + DYNAMIC_ARRAY_SIZE
        omega
      · show d.reservedSize + DYNAMIC_ARRAY_SIZE < U32_MOD
        omega
    · intro _; rfl
  · have hlt : d.size < d.data.length := by omega
    refine ⟨{ d with data := d.data.set d.size v, size := d.size + 1 }, ?_, rfl, ?_, ?_, ?_, ?_, ?_⟩
    · simp only [push_back, resize_of_not_full d hfull, bind, Except.bind, pure, Except.pure]
      rw [writeSlot_of_lt _ _ _ hlt, hmod]
    · simp only [toList]
      exact take_succ_set _ _ _ hlt
    · intro i hi
      have hne : d.size ≠ i := by omega
      simp [List.getElem?_set, hne]
    · simp [List.getElem?_set, hlt]
    · refine ⟨?_, ?_, hres⟩
      · simp [hlen]
      · show d.size + 1 ≤ d.reservedSize
        omega
    · intro h; exact absurd h.symm hfull

/-- Witness of C7: a full block of 16 elements is regrown to 32 slots and the
new value lands at index 16. -/
theorem push_back_spec_witness :
    ∃ d1, push_back ({ data := List.range 16, size := 16, reservedSize := 16 } : DynamicArray Nat) 7
        = .ok d1 ∧ d1.size = 17 ∧ d1.toList = List.range 16 ++ [7] ∧ d1.reservedSize = 32 := by
  obtain ⟨d1, h1, h2, h3, _, _, _, h7⟩ :=
    push_back_spec ({ data := List.range 16, size := 16, reservedSize := 16 } : DynamicArray Nat) 7
      ⟨by decide, by decide, by decide⟩ (by decide)
  exact ⟨d1, h1, h2, h3, h7 rfl⟩

/-! ## pop_back -/

/-- C8: `pop_back` is total. On a non-empty array of size `n` it leaves size
`n - 1`, the block and so the elements at indices `0..n-2` untouched; on an
empty array it leaves the array as it is (size 0, no wrap below zero); and
afterwards `empty()` holds exactly when `size()` is 0. -/
theorem pop_back_spec (d : DynamicArray α) :
    (1 ≤ d.size → d.pop_back.size = d.size - 1 ∧ d.pop_back.data = d.data ∧
      d.pop_back.reservedSize = d.reservedSize ∧
      d.pop_back.toList = d.toList.take (d.size - 1) ∧
      ∀ i, i < d.size - 1 → d.pop_back.get i = d.get i) ∧
    (d.size = 0 → d.pop_back = d) ∧
    (d.pop_back.empty = true ↔ d.pop_back.size = 0) := by
  refine ⟨?_, ?_, ?_⟩
  · intro h
    have hp : d.pop_back = { d with size := d.size - 1 } := by simp [pop_back, h]
    rw [hp]
    refine ⟨rfl, rfl, rfl, ?_, fun _ _ => rfl⟩
    simp only [toList, List.take_take]
    rw [Nat.min_eq_left (Nat.sub_le _ _)]
  · intro h
    simp [pop_back, h]
  · simp [empty]

/-- Witness of C8: popping `[1, 2, 3]` leaves `[1, 2]`, and popping the empty
array leaves it empty. -/
theorem pop_back_spec_witness :
    (pop_back ({ data := [1, 2, 3, 0], size := 3, reservedSize := 4 } : DynamicArray Nat)).toList
        = [1, 2] ∧
      pop_back ({ data := [0, 0], size := 0, reservedSize := 2 } : DynamicArray Nat)
        = { data := [0, 0], size := 0, reservedSize := 2 } :=
  ⟨((pop_back_spec ({ data := [1, 2, 3, 0], size := 3, reservedSize := 4 } : DynamicArray Nat)).1
      (by decide)).2.2.2.1,
    (pop_back_spec ({ data := [0, 0], size := 0, reservedSize := 2 } : DynamicArray Nat)).2.1 rfl⟩

/-! ## insert -/

theorem insertShift_succ (index fuel i : Nat) (data : List α) :
    insertShift index (fuel + 1) i data =
      if i ≥ index then
        (readSlot data i) >>= fun v =>
          (writeSlot data ((i + 1) % U32_MOD) v) >>= fun data1 =>
            insertShift index fuel ((i + U32_MOD - 1) % U32_MOD) data1
      else .ok data := rfl

/-- With index 0 the loop test `i >= index` of `insert` is always true: the
shifting loop never finishes, whatever the fuel. -/
theorem insertShift_zero_never_done (fuel i : Nat) (data : List α) :
    (insertShift 0 fuel i data).toOption = none := by
  induction fuel generalizing i data with
  | zero => rfl
  | succ fuel ih =>
    rw [insertShift_succ]
    simp only [ge_iff_le, Nat.zero_le, if_true]
    cases h1 : readSlot data i with
    | error e => rfl
    | ok v =>
      simp only [bind, Except.bind]
      cases h2 : writeSlot data ((i + 1) % U32_MOD) v with
      | error e => rfl
      | ok data1 => exact ih _ _

/-- The `insert(0, v)` defect in general: on every non-empty array that needs
no regrowth the call does not return, whatever the fuel. -/
theorem insert_zero_never_returns [Inhabited α] (fuel : Nat) (d : DynamicArray α) (v : α)
    (hne : 0 < d.size) (hroom : d.reservedSize ≠ d.size) :
    (d.insert fuel 0 v).toOption = none := by
  have h0 : ¬ (0 ≥ d.size) := by omega
  simp only [insert, h0, if_false, resize_of_not_full d hroom, bind, Except.bind]
  have := insertShift_zero_never_done fuel ((d.size + U32_MOD - 1) % U32_MOD) d.data
  cases h1 : insertShift 0 fuel ((d.size + U32_MOD - 1) % U32_MOD) d.data with
  | error e => rfl
  | ok data1 => rw [h1] at this; cases this

/-- The shifting loop of `insert` for an index of at least 1: started at
counter `i` with `index <= i + 1`, it returns, and slot `j` of the block then
holds the old slot `j - 1` for `index < j <= i + 1` and the old slot `j`
elsewhere. -/
theorem insertShift_spec (index : Nat) (hidx : 1 ≤ index) (fuel i : Nat) (data : List α)
    (hi : i + 1 < data.length) (hlen : data.length ≤ U32_MOD) (hle : index ≤ i + 1)
    (hfuel : i + 2 - index ≤ fuel) :
    ∃ data1, insertShift index fuel i data = .ok data1 ∧ data1.length = data.length ∧
      ∀ j, data1[j]? = if index < j ∧ j ≤ i + 1 then data[j - 1]? else data[j]? := by
  induction fuel generalizing i data with
  | zero => omega
  | succ fuel ih =>
    rw [insertShift_succ]
    by_cases hge : i ≥ index
    · have hi0 : i < data.length := by omega
      have hm1 : (i + 1) % U32_MOD = i + 1 := Nat.mod_eq_of_lt (by omega)
      have hm2 : (i + U32_MOD - 1) % U32_MOD = i - 1 := by
        have : i + U32_MOD - 1 = (i - 1) + U32_MOD := by omega
        rw [this, Nat.add_mod_right]
        exact Nat.mod_eq_of_lt (by omega)
      simp only [hge, if_true, readSlot_of_lt data i hi0, hm1, hm2, bind, Except.bind,
        writeSlot_of_lt data (i + 1) _ hi]
      obtain ⟨data1, h1, h2, h3⟩ := ih (i - 1) (data.set (i + 1) (data.get ⟨i, hi0⟩))
        (by rw [List.length_set]; omega) (by rw [List.length_set]; exact hlen) (by omega) (by omega)
      refine ⟨data1, h1, by rw [h2, List.length_set], ?_⟩
      intro j
      rw [h3 j]
      by_cases hj : j = i + 1
      · subst hj
        have hc1 : ¬ (index < i + 1 ∧ i + 1 ≤ i - 1 + 1) := by omega
        have hc2 : index < i + 1 ∧ i + 1 ≤ i + 1 := by omega
        rw [if_neg hc1, if_pos hc2, List.getElem?_set, if_pos rfl, if_pos hi]
        simp [List.getElem?_eq_getElem hi0]
      · by_cases hmid : index < j ∧ j ≤ i
        · have hc1 : index < j ∧ j ≤ i - 1 + 1 := by omega
          have hc2 : index < j ∧ j ≤ i + 1 := by omega
          have hne : i + 1 ≠ j - 1 := by omega
          rw [if_pos hc1, if_pos hc2, List.getElem?_set, if_neg hne]
        · have hc1 : ¬ (index < j ∧ j ≤ i - 1 + 1) := by omega
          have hc2 : ¬ (index < j ∧ j ≤ i + 1) := by omega
          have hne : i + 1 ≠ j := by omega
          rw [if_neg hc1, if_neg hc2, List.getElem?_set, if_neg hne]
    · refine ⟨data, by simp [hge], rfl, ?_⟩
      intro j
      have hc : ¬ (index < j ∧ j ≤ i + 1) := by omega
      rw [if_neg hc]

/-- What `resize()` guarantees its callers: it returns, the size is kept, a
free slot follows the used ones and the used slots keep their content. -/
theorem resize_spec [Inhabited α] (d : DynamicArray α) (hwf : d.WF)
    (hroom : d.size + DYNAMIC_ARRAY_SIZE < U32_MOD) :
    ∃ d0, d.resize = .ok d0 ∧ d0.size = d.size ∧ d.size < d0.data.length ∧
      d0.data.length < U32_MOD ∧ d0.data.length = d0.reservedSize ∧
      ∀ j, j < d.size → d0.data[j]? = d.data[j]? := by
  have hwf0 := hwf
  obtain ⟨hlen, hsz, hres⟩ := hwf
  have h16 : DYNAMIC_ARRAY_SIZE = 16 := rfl
  by_cases hfull : d.reservedSize = d.size
  · refine ⟨_, resize_of_full d hwf0 hfull hroom, rfl, ?_, ?_, ?_, ?_⟩
    · show d.size < (d.data ++ List.replicate DYNAMIC_ARRAY_SIZE default).length
      rw [List.length_append, List.length_replicate]; omega
    · show (d.data ++ List.replicate DYNAMIC_ARRAY_SIZE default).length < U32_MOD
      rw [List.length_append, List.length_replicate]; omega
    · show (d.data ++ List.replicate DYNAMIC_ARRAY_SIZE default).length = _
      rw [List.length_append, List.length_replicate, hlen]
    · intro j hj
      exact List.getElem?_append_left (by omega)
  · exact ⟨d, resize_of_not_full d hfull, rfl, by omega, by omega, hlen, fun _ _ => rfl⟩

/-- The part of C5 that the code meets: for an index `1 <= index < n` the call
`insert(index, v)` returns and leaves the first `index` elements, then `v`,
then the remaining elements. -/
theorem insert_spec_of_pos [Inhabited α] (fuel : Nat) (d : DynamicArray α) (index : Nat) (v : α)
    (hwf : d.WF) (hroom : d.size + DYNAMIC_ARRAY_SIZE < U32_MOD) (hidx : 1 ≤ index)
    (hlt : index < d.size) (hfuel : d.size + 1 - index ≤ fuel) :
    ∃ d1, d.insert fuel index v = .ok d1 ∧ d1.size = d.size + 1 ∧
      d1.toList = d.toList.take index ++ v :: d.toList.drop index := by
  obtain ⟨d0, hr, hs0, hl0, hu0, _, hd0⟩ := resize_spec d hwf hroom
  have hsz := hwf.2.1
  have hlen := hwf.1
  have h16 : DYNAMIC_ARRAY_SIZE = 16 := rfl
  have hstart : (d0.size + U32_MOD - 1) % U32_MOD = d.size - 1 := by
    have : d0.size + U32_MOD - 1 = (d.size - 1) + U32_MOD := by omega
    rw [this, Nat.add_mod_right]
    exact Nat.mod_eq_of_lt (by omega)
  have hmod : (d0.size + 1) % U32_MOD = d.size + 1 := by
    rw [hs0]; exact Nat.mod_eq_of_lt (by omega)
  obtain ⟨data1, h1, h2, h3⟩ := insertShift_spec index hidx fuel (d.size - 1) d0.data
    (by omega) (by omega) (by omega) (by omega)
  have hnot : ¬ (index ≥ d.size) := by omega
  have hw : index < data1.length := by omega
  refine ⟨{ d0 with data := data1.set index v, size := d.size + 1 }, ?_, rfl, ?_⟩
  · simp only [insert, hnot, if_false, hr, bind, Except.bind, hstart, h1,
      writeSlot_of_lt data1 index v hw, pure, Except.pure, hmod]
  · apply List.ext_getElem?
    intro j
    simp only [toList]
    have hxs : (List.take d.size d.data).length = d.size := by
      rw [List.length_take]; omega
    have htk : (List.take index (List.take d.size d.data)).length = index := by
      rw [List.length_take, hxs]; omega
    rw [List.getElem?_take, List.getElem?_set, h3 j, List.getElem?_append, htk]
    by_cases hj1 : j < index
    · have c1 : j < d.size + 1 := by omega
      have c2 : index ≠ j := by omega
      have c3 : ¬ (index < j ∧ j ≤ d.size - 1 + 1) := by omega
      rw [if_pos c1, if_neg c2, if_neg c3, if_pos hj1, List.getElem?_take, if_pos hj1,
        List.getElem?_take, if_pos (by omega), hd0 j (by omega)]
    · rw [if_neg hj1]
      by_cases hj2 : j = index
      · subst hj2
        have c1 : j < d.size + 1 := by omega
        rw [if_pos c1, if_pos rfl, if_pos hw]
        simp
      · have c2 : index ≠ j := by omega
        obtain ⟨k, hk⟩ : ∃ k, j - index = k + 1 := ⟨j - index - 1, by omega⟩
        rw [hk, List.getElem?_cons_succ, List.getElem?_drop, List.getElem?_take]
        have hjk : index + k = j - 1 := by omega
        rw [hjk]
        by_cases hj3 : j < d.size + 1
        · have c3 : index < j ∧ j ≤ d.size - 1 + 1 := by omega
          rw [if_pos hj3, if_neg c2, if_pos c3, if_pos (by omega), hd0 (j - 1) (by omega)]
        · rw [if_neg hj3, if_neg (by omega)]

/-- C5: the sequence claimed for `insert(i, v)` is not produced for `i = 0`.
On the array holding `[1]` the call `insert(0, 9)` does not return for any
amount of fuel: after slot 0 is shifted the `u32` counter wraps from 0 to
4294967295, the test `i >= 0` is still true, and the next read is outside the
block. -/
theorem insert_at_zero_faults :
    (∀ fuel, (insert fuel ({ data := 1 :: List.replicate 15 0, size := 1, reservedSize := 16 } :
        DynamicArray Nat) 0 9).toOption = none) ∧
      insert 2 ({ data := 1 :: List.replicate 15 0, size := 1, reservedSize := 16 } :
        DynamicArray Nat) 0 9 = .error .outOfBounds :=
  ⟨fun fuel => insert_zero_never_returns fuel _ 9 (by decide) (by decide), rfl⟩

/-! ## erase -/

theorem readSlotOrBeyond_of_lt {α : Type} (data : List α) (beyond : α) (i : Nat)
    (h : i < data.length) : readSlotOrBeyond data beyond i = .ok (data.get ⟨i, h⟩) := by
  simp [readSlotOrBeyond, List.getElem?_eq_getElem h]

theorem readSlotOrBeyond_length {α : Type} (data : List α) (beyond : α) :
    readSlotOrBeyond data beyond data.length = .ok beyond := by
  simp [readSlotOrBeyond]

theorem eraseShift_succ (size fuel i : Nat) (beyond : α) (data : List α) :
    eraseShift size beyond (fuel + 1) i data =
      if i < size then
        (readSlotOrBeyond data beyond ((i + 1) % U32_MOD)) >>= fun v =>
          (writeSlot data i v) >>= fun data1 =>
            eraseShift size beyond fuel ((i + 1) % U32_MOD) data1
      else .ok data := rfl

/-- The shifting loop of `erase` on a block of at least `size` slots: it
returns, and slot `j` then holds the old slot `j + 1` for `i <= j < size` (the
word `beyond` when `j + 1` is the length of the block) and the old slot `j`
elsewhere. -/
theorem eraseShift_spec (size fuel i : Nat) (beyond : α) (data : List α)
    (hsz : size ≤ data.length) (hlen : data.length < U32_MOD) (hi : i ≤ size)
    (hfuel : size + 1 - i ≤ fuel) :
    ∃ data1, eraseShift size beyond fuel i data = .ok data1 ∧ data1.length = data.length ∧
      ∀ j, data1[j]? =
        if i ≤ j ∧ j < size then (if j + 1 < data.length then data[j + 1]? else some beyond)
        else data[j]? := by
  induction fuel generalizing i data with
  | zero => omega
  | succ fuel ih =>
    rw [eraseShift_succ]
    by_cases hlt : i < size
    · have hm : (i + 1) % U32_MOD = i + 1 := Nat.mod_eq_of_lt (by omega)
      have h0 : i < data.length := by omega
      have hread : ∃ v, readSlotOrBeyond data beyond (i + 1) = .ok v ∧
          some v = (if i + 1 < data.length then data[i + 1]? else some beyond) := by
        by_cases h1 : i + 1 < data.length
        · refine ⟨data.get ⟨i + 1, h1⟩, readSlotOrBeyond_of_lt data beyond (i + 1) h1, ?_⟩
          rw [if_pos h1]
          simp [List.getElem?_eq_getElem h1]
        · have he : i + 1 = data.length := by omega
          refine ⟨beyond, ?_, ?_⟩
          · rw [he]; exact readSlotOrBeyond_length data beyond
          · rw [if_neg h1]
      obtain ⟨v, hv1, hv2⟩ := hread
      simp only [hlt, if_true, hm, hv1, writeSlot_of_lt data i _ h0, bind, Except.bind]
      obtain ⟨data1, e1, e2, e3⟩ := ih (i + 1) (data.set i v)
        (by rw [List.length_set]; exact hsz) (by rw [List.length_set]; exact hlen) (by omega)
        (by omega)
      refine ⟨data1, e1, by rw [e2, List.length_set], ?_⟩
      intro j
      rw [e3 j, List.length_set]
      by_cases hj : j = i
      · subst hj
        have c1 : ¬ (j + 1 ≤ j ∧ j < size) := by omega
        have c2 : j ≤ j ∧ j < size := by omega
        rw [if_neg c1, if_pos c2, List.getElem?_set, if_pos rfl, if_pos h0, hv2]
      · by_cases hmid : i + 1 ≤ j ∧ j < size
        · have c2 : i ≤ j ∧ j < size := by omega
          have hne : i ≠ j + 1 := by omega
          rw [if_pos hmid, if_pos c2, List.getElem?_set, if_neg hne]
        · have c2 : ¬ (i ≤ j ∧ j < size) := by omega
          have hne : i ≠ j := by omega
          rw [if_neg hmid, if_neg c2, List.getElem?_set, if_neg hne]
    · refine ⟨data, by simp [hlt], rfl, ?_⟩
      intro j
      have c : ¬ (i ≤ j ∧ j < size) := by omega
      rw [if_neg c]

/-- C6: `erase(i)` removes exactly the element at index `i`. For every array
that meets the representation invariant, full or not, every word `beyond` that
memory holds after the block and every index: if `index < n`, `erase(index)`
returns with size `n - 1` and the sequence with the element at `index` removed
(the elements before `index` unchanged, every former element at `j > index` now
at `j - 1`); if `index >= n` it returns the array unchanged. -/
theorem erase_removes_element (fuel : Nat) (beyond : α) (d : DynamicArray α) (index : Nat)
    (hwf : d.WF) (hfuel : d.size + 1 - index ≤ fuel) :
    (index < d.size → ∃ d1, d.erase fuel beyond index = .ok d1 ∧ d1.size = d.size - 1 ∧
      d1.reservedSize = d.reservedSize ∧
      d1.toList = d.toList.eraseIdx index ∧
      (∀ j, j < index → d1.toList[j]? = d.toList[j]?) ∧
      (∀ j, index < j → j < d.size → d1.toList[j - 1]? = d.toList[j]?)) ∧
    (d.size ≤ index → d.erase fuel beyond index = .ok d) := by
  obtain ⟨hlen, hsize, hres⟩ := hwf
  refine ⟨?_, ?_⟩
  · intro hlt
    have hnot : ¬ (index ≥ d.size) := by omega
    obtain ⟨data1, e1, e2, e3⟩ := eraseShift_spec d.size fuel index beyond d.data (by omega)
      (by omega) (by omega) hfuel
    have hmod : (d.size + U32_MOD - 1) % U32_MOD = d.size - 1 := by
      have : d.size + U32_MOD - 1 = (d.size - 1) + U32_MOD := by omega
      rw [this, Nat.add_mod_right]
      exact Nat.mod_eq_of_lt (by omega)
    have hseq : (List.take (d.size - 1) data1) = (List.take d.size d.data).eraseIdx index := by
      apply List.ext_getElem?
      intro j
      rw [List.getElem?_take, e3 j, List.getElem?_eraseIdx]
      by_cases hj1 : j < index
      · have c1 : j < d.size - 1 := by omega
        have c2 : ¬ (index ≤ j ∧ j < d.size) := by omega
        rw [if_pos c1, if_neg c2, if_pos hj1, List.getElem?_take, if_pos (by omega)]
      · rw [if_neg hj1, List.getElem?_take]
        by_cases hj2 : j < d.size - 1
        · have c2 : index ≤ j ∧ j < d.size := by omega
          have c3 : j + 1 < d.data.length := by omega
          rw [if_pos hj2, if_pos c2, if_pos c3, if_pos (by omega)]
        · rw [if_neg hj2, if_neg (by omega)]
    refine ⟨{ d with data := data1, size := d.size - 1 }, ?_, rfl, rfl, hseq, ?_, ?_⟩
    · simp only [erase, hnot, if_false, e1, bind, Except.bind, pure, Except.pure, hmod]
    · intro j hj
      show (List.take (d.size - 1) data1)[j]? = (List.take d.size d.data)[j]?
      rw [hseq, List.getElem?_eraseIdx, if_pos hj]
    · intro j hj1 hj2
      show (List.take (d.size - 1) data1)[j - 1]? = (List.take d.size d.data)[j]?
      have hne : ¬ (j - 1 < index) := by omega
      have hj : j - 1 + 1 = j := by omega
      rw [hseq, List.getElem?_eraseIdx, if_neg hne, hj]
  · intro hge
    simp [erase, hge]

/-- Witness of C6 on a full array: with the 16 elements `0..15` in the 16
reserved slots and the word 99 after the block, `erase(0)` returns the array of
size 15 that holds `1..15`. -/
theorem erase_removes_element_witness :
    (∃ d1, erase 17 99 ({ data := List.range 16, size := 16, reservedSize := 16 } :
        DynamicArray Nat) 0 = .ok d1 ∧ d1.size = 15 ∧
      d1.toList = [1, 2, 3, 4, 5, 6, 7, 8, 9, 10, 11, 12, 13, 14, 15]) ∧
      erase 17 99 ({ data := List.range 16, size := 16, reservedSize := 16 } :
        DynamicArray Nat) 16 =
          .ok { data := List.range 16, size := 16, reservedSize := 16 } := by
  have h := erase_removes_element 17 99
    ({ data := List.range 16, size := 16, reservedSize := 16 } : DynamicArray Nat) 0
    ⟨by decide, by decide, by decide⟩ (by decide)
  have h16 := erase_removes_element 17 99
    ({ data := List.range 16, size := 16, reservedSize := 16 } : DynamicArray Nat) 16
    ⟨by decide, by decide, by decide⟩ (by decide)
  obtain ⟨d1, e1, e2, _, e4, _⟩ := h.1 (by decide)
  exact ⟨⟨d1, e1, e2, by rw [e4]; decide⟩, h16.2 (by decide)⟩

end DynamicArray

/-! ## ListDataItem::compareTo -/

theorem toS8_of_small (n : Int) (h1 : -128 ≤ n) (h2 : n ≤ 127) : toS8 n = n := by
  unfold toS8
  omega

/-- On texts of 7 bit characters `strcmp` has the sign of the byte-wise
lexicographic order and its value fits an `s8`. -/
theorem strcmp_ascii (a b : List Nat) (ha : isAscii a) (hb : isAscii b) :
    -127 ≤ strcmp a b ∧ strcmp a b ≤ 127 ∧
      (textBefore a b = true → strcmp a b < 0) ∧ (a = b → strcmp a b = 0) ∧
      (textBefore b a = true → 0 < strcmp a b) := by
  induction a generalizing b with
  | nil =>
    cases b with
    | nil => simp [strcmp, textBefore]
    | cons y ys =>
      have hy := hb y (List.mem_cons_self _ _)
      have e1 : strcmp [] (y :: ys) = 0 - (y : Int) := rfl
      have e2 : textBefore [] (y :: ys) = true := rfl
      have e3 : textBefore (y :: ys) [] = false := rfl
      rw [e1, e2, e3]
      refine ⟨by omega, by omega, fun _ => by omega, fun h => ?_, fun h => ?_⟩
      · cases h
      · cases h
  | cons x xs ih =>
    have hx := ha x (List.mem_cons_self _ _)
    cases b with
    | nil =>
      have e1 : strcmp (x :: xs) [] = (x : Int) := rfl
      have e2 : textBefore [] (x :: xs) = true := rfl
      have e3 : textBefore (x :: xs) [] = false := rfl
      rw [e1, e2, e3]
      refine ⟨by omega, by omega, fun h => ?_, fun h => ?_, fun _ => by omega⟩
      · cases h
      · cases h
    | cons y ys =>
      have hy := hb y (List.mem_cons_self _ _)
      have hxs : isAscii xs := fun c hc => ha c (List.mem_cons_of_mem _ hc)
      have hys : isAscii ys := fun c hc => hb c (List.mem_cons_of_mem _ hc)
      obtain ⟨i1, i2, i3, i4, i5⟩ := ih ys hxs hys
      have e1 : strcmp (x :: xs) (y :: ys) = if x = y then strcmp xs ys else (x : Int) - (y : Int) := by
        simp only [strcmp]
      have e2 : textBefore (x :: xs) (y :: ys) =
          if x < y then true else if y < x then false else textBefore xs ys := by
        simp only [textBefore]
      have e3 : textBefore (y :: ys) (x :: xs) =
          if y < x then true else if x < y then false else textBefore ys xs := by
        simp only [textBefore]
      rw [e1, e2, e3]
      by_cases hxy : x = y
      · subst hxy
        rw [if_pos rfl]
        simp only [if_neg (lt_irrefl x)]
        refine ⟨i1, i2, i3, fun h => ?_, i5⟩
        exact i4 (List.cons.inj h).2
      · rw [if_neg hxy]
        by_cases hlt : x < y
        · have hgt : ¬ (y < x) := by omega
          rw [if_pos hlt, if_neg hgt, if_pos hlt]
          refine ⟨by omega, by omega, fun _ => by omega, fun h => ?_, fun h => ?_⟩
          · exact absurd (List.cons.inj h).1 hxy
          · cases h
        · have hgt : y < x := by omega
          rw [if_neg hlt, if_neg hlt, if_pos hgt, if_pos hgt]
          refine ⟨by omega, by omega, fun h => ?_, fun h => ?_, fun _ => by omega⟩
          · cases h
          · exact absurd (List.cons.inj h).1 hxy

/-- The part of C9 that the code meets: on texts of 7 bit characters
`compareTo` is negative, zero or positive as the byte-wise lexicographic order
of the two texts says. -/
theorem compareTo_spec_of_ascii (a item : ListDataItem) (ha : isAscii a.text)
    (hb : isAscii item.text) :
    (textBefore a.text item.text = true → a.compareTo item < 0) ∧
      (a.text = item.text → a.compareTo item = 0) ∧
      (textBefore item.text a.text = true → 0 < a.compareTo item) := by
  obtain ⟨h1, h2, h3, h4, h5⟩ := strcmp_ascii a.text item.text ha hb
  unfold ListDataItem.compareTo
  rw [toS8_of_small _ (by omega) (by omega)]
  exact ⟨h3, h4, h5⟩

/-- C9: the sign claimed for `compareTo` is lost for bytes above 127. The text
"A" (byte 65) comes before the text whose bytes are 195, 169 (a two byte
UTF-8 character), `strcmp` yields 65 - 195 = -130, and the `s8` return type
turns it into 126: `compareTo` is positive although the first text comes
first. -/
theorem compareTo_high_byte_wrong_sign :
    textBefore [65] [195, 169] = true ∧
      strcmp [65] [195, 169] = -130 ∧
      ListDataItem.compareTo { text := [65], value := 0, isSelected := false }
        { text := [195, 169], value := 1, isSelected := false } = 126 := by
  decide

/-! ## MultiLineTextBox: cursor -/

theorem toS32_of_small (n : Int) (h1 : -2147483648 ≤ n) (h2 : n < 2147483648) : toS32 n = n := by
  unfold toS32
  omega

/-- C10: `moveCursorToPosition(p)` clamps. With `L` the length of the text,
the cursor ends at 0 for `p < 0`, at `p` for `0 <= p <= L` and at `L` for
`p > L`; the text is not touched. -/
theorem moveCursorToPosition_clamps (b : MultiLineTextBox) (p : Int)
    (hlen : b.text.getLength < 2147483648) :
    (p < 0 → (b.moveCursorToPosition p).cursorPos = 0) ∧
      (0 ≤ p → p ≤ (b.text.getLength : Int) → (b.moveCursorToPosition p).cursorPos = p) ∧
      ((b.text.getLength : Int) < p →
        (b.moveCursorToPosition p).cursorPos = (b.text.getLength : Int)) ∧
      (b.moveCursorToPosition p).text = b.text := by
  have hs : toS32 (b.text.getLength : Int) = (b.text.getLength : Int) :=
    toS32_of_small _ (by omega) (by omega)
  refine ⟨?_, ?_, ?_, ?_⟩
  · intro h
    simp [MultiLineTextBox.moveCursorToPosition, h]
  · intro h0 h1
    have hn : ¬ (p < 0) := by omega
    simp only [MultiLineTextBox.moveCursorToPosition, hn, if_false, hs]
    by_cases hc : (b.text.getLength : Int) > p
    · simp [hc]
    · have : p = (b.text.getLength : Int) := by omega
      simp [hc, this]
  · intro h
    have hn : ¬ (p < 0) := by omega
    have hc : ¬ ((b.text.getLength : Int) > p) := by omega
    simp only [MultiLineTextBox.moveCursorToPosition, hn, if_false, hs, hc]
  · unfold MultiLineTextBox.moveCursorToPosition
    split <;> rfl

/-- Witness of C10: on the text "abc" the positions -4, 2 and 9 leave the
cursor at 0, 2 and 3. -/
theorem moveCursorToPosition_clamps_witness :
    (MultiLineTextBox.moveCursorToPosition
        { text := { chars := "abc".toList, lines := ["abc".toList] }, maxRows := 5,
          visibleRows := 3, cursorPos := 1 } (-4)).cursorPos = 0 ∧
      (MultiLineTextBox.moveCursorToPosition
        { text := { chars := "abc".toList, lines := ["abc".toList] }, maxRows := 5,
          visibleRows := 3, cursorPos := 1 } 2).cursorPos = 2 ∧
      (MultiLineTextBox.moveCursorToPosition
        { text := { chars := "abc".toList, lines := ["abc".toList] }, maxRows := 5,
          visibleRows := 3, cursorPos := 1 } 9).cursorPos = 3 :=
  ⟨(moveCursorToPosition_clamps
      { text := { chars := "abc".toList, lines := ["abc".toList] }, maxRows := 5,
        visibleRows := 3, cursorPos := 1 } (-4) (by decide)).1 (by decide),
    (moveCursorToPosition_clamps
      { text := { chars := "abc".toList, lines := ["abc".toList] }, maxRows := 5,
        visibleRows := 3, cursorPos := 1 } 2 (by decide)).2.1 (by decide) (by decide),
    (moveCursorToPosition_clamps
      { text := { chars := "abc".toList, lines := ["abc".toList] }, maxRows := 5,
        visibleRows := 3, cursorPos := 1 } 9 (by decide)).2.2.1 (by decide)⟩

/-! ## MultiLineTextBox: row limit -/

namespace MultiLineTextBox

/-- The row check shared by setText, appendText, setFont and onResize leaves at
most `_maxRows` lines, the lines kept being the newest ones. -/
theorem ensureRows_lineCount_le (b : MultiLineTextBox) (h : 0 ≤ b.maxRows) :
    (ensureRows b).text.getLineCount ≤ b.maxRows ∧ (ensureRows b).maxRows = b.maxRows ∧
      ∃ k, (ensureRows b).text.lines = b.text.lines.drop k := by
  unfold ensureRows
  by_cases hc : b.text.getLineCount > b.maxRows
  · rw [if_pos hc]
    refine ⟨?_, rfl, ⟨_, rfl⟩⟩
    simp only [Text.getLineCount, Text.stripTopLines, List.length_drop] at hc ⊢
    omega
  · rw [if_neg hc]
    exact ⟨by omega, rfl, ⟨0, rfl⟩⟩

/-- The part of C1 that the code meets: after setText, appendText, setFont and
onResize the text holds at most `_maxRows` lines. -/
theorem rows_le_maxRows_after_checked_ops (wrap : List Char → List (List Char))
    (b : MultiLineTextBox) (s : List Char) (visibleRows : Int) (h : 0 ≤ b.maxRows) :
    (setText wrap b s).text.getLineCount ≤ b.maxRows ∧
      (appendText wrap b s).text.getLineCount ≤ b.maxRows ∧
      (setFont wrap b).text.getLineCount ≤ b.maxRows ∧
      (onResize wrap b visibleRows).text.getLineCount ≤ b.maxRows :=
  ⟨(ensureRows_lineCount_le { b with text := b.text.setText wrap s } h).1,
    (ensureRows_lineCount_le { b with text := b.text.append wrap s } h).1,
    (ensureRows_lineCount_le { b with text := b.text.rewrap wrap } h).1,
    (ensureRows_lineCount_le { b with text := b.text.rewrap wrap, visibleRows := visibleRows } h).1⟩

/-- C1: the row limit is not kept by insertText, which lacks the row check of
its siblings. A text box with `_maxRows = 2` that holds the one line "a" is
within the limit after setText; after `insertText("b\nc\nd\n", 0)` it holds 4
lines, and after `appendText` of the same string it holds 2. -/
theorem insertText_exceeds_maxRows :
    (setText wrapNewlines
        { text := { chars := [], lines := [] }, maxRows := 2, visibleRows := 2, cursorPos := 0 }
        "a\n".toList).text.getLineCount = 1 ∧
      (insertText wrapNewlines
        (setText wrapNewlines
          { text := { chars := [], lines := [] }, maxRows := 2, visibleRows := 2, cursorPos := 0 }
          "a\n".toList)
        "b\nc\nd\n".toList 0).text.getLineCount = 4 ∧
      (insertText wrapNewlines
        (setText wrapNewlines
          { text := { chars := [], lines := [] }, maxRows := 2, visibleRows := 2, cursorPos := 0 }
          "a\n".toList)
        "b\nc\nd\n".toList 0).maxRows = 2 ∧
      (appendText wrapNewlines
        (setText wrapNewlines
          { text := { chars := [], lines := [] }, maxRows := 2, visibleRows := 2, cursorPos := 0 }
          "a\n".toList)
        "b\nc\nd\n".toList).text.getLineCount = 2 := by
  decide

end MultiLineTextBox

/-! ## SliderVertical::getValue -/

namespace SliderVertical

theorem toS16_of_small (n : Int) (h1 : -32768 ≤ n) (h2 : n ≤ 32767) : toS16 n = n := by
  unfold toS16
  omega

/-- C2, as stated, fails: with value range 10..20 and the grip at the top of
the gutter `getValue()` returns 0, which is below `minimumValue`. -/
theorem getValue_below_minimum :
    sliderTenToTwenty.minimumValue ≤ sliderTenToTwenty.maximumValue ∧
      sliderTenToTwenty.gripInGutter ∧
      sliderTenToTwenty.getValue = .ok 0 ∧
      ¬ (sliderTenToTwenty.minimumValue ≤ 0 ∧ (0 : Int) ≤ sliderTenToTwenty.maximumValue) := by
  refine ⟨by decide, ⟨by decide, by decide⟩, rfl, ?_⟩
  intro h
  exact absurd h.1 (by decide)

/-- The value of `getValue()` in terms of the offset that it measures,
`d = _grip->getY() - _parent->getY()`: for a value range with
`0 <= max - min <= 32767`, a grip no taller than the gutter and
`0 <= d <= rect.height - gripHeight + 1`, no operation wraps and the call
returns `(max - min) * d / (rect.height - gripHeight + 1)`, which lies in
`0 .. max - min`. -/
theorem getValue_of_offset_bounds (s : SliderVertical)
    (hrange : s.minimumValue ≤ s.maximumValue)
    (hspan : s.maximumValue - s.minimumValue ≤ 32767)
    (hgrip : s.gripHeight ≤ s.rect.height) (hgrip0 : 0 ≤ s.gripHeight)
    (hheight : s.rect.height ≤ 65535)
    (hlo : 0 ≤ s.gripOffset) (hhi : s.gripOffset ≤ s.rect.height - s.gripHeight + 1) :
    s.getValue = .ok ((s.maximumValue - s.minimumValue) * (s.gripY - s.parentY)
        / (s.rect.height - s.gripHeight + 1)) ∧
      0 ≤ (s.maximumValue - s.minimumValue) * (s.gripY - s.parentY)
        / (s.rect.height - s.gripHeight + 1) ∧
      (s.maximumValue - s.minimumValue) * (s.gripY - s.parentY)
        / (s.rect.height - s.gripHeight + 1) ≤ s.maximumValue - s.minimumValue := by
  unfold gripOffset at hlo hhi
  have hD : 0 < s.rect.height - s.gripHeight + 1 := by omega
  have hD2 : s.rect.height - s.gripHeight + 1 ≤ 65536 := by omega
  have hM : 0 ≤ s.maximumValue - s.minimumValue := by omega
  have hP0 : 0 ≤ (s.maximumValue - s.minimumValue) * (s.gripY - s.parentY) :=
    mul_nonneg hM hlo
  have hP1 : (s.maximumValue - s.minimumValue) * (s.gripY - s.parentY)
      ≤ (s.maximumValue - s.minimumValue) * (s.rect.height - s.gripHeight + 1) :=
    mul_le_mul_of_nonneg_left hhi hM
  have hP2 : (s.maximumValue - s.minimumValue) * (s.rect.height - s.gripHeight + 1)
      ≤ 32767 * 65536 :=
    mul_le_mul hspan hD2 (by omega) (by omega)
  have hS : toS32 ((s.maximumValue - s.minimumValue) * (s.gripY - s.parentY))
      = (s.maximumValue - s.minimumValue) * (s.gripY - s.parentY) :=
    toS32_of_small _ (by omega) (by omega)
  have hq0 : 0 ≤ (s.maximumValue - s.minimumValue) * (s.gripY - s.parentY)
      / (s.rect.height - s.gripHeight + 1) :=
    Int.ediv_nonneg hP0 (by omega)
  have hq1 : (s.maximumValue - s.minimumValue) * (s.gripY - s.parentY)
      / (s.rect.height - s.gripHeight + 1) ≤ s.maximumValue - s.minimumValue :=
    Int.ediv_le_of_le_mul hD hP1
  have hne : ¬ (s.rect.height - s.gripHeight + 1 = 0) := by omega
  refine ⟨?_, hq0, hq1⟩
  simp only [getValue, hne, if_false, hS]
  rw [Int.tdiv_eq_ediv hP0 (by omega), toS16_of_small _ (by omega) (by omega)]

/-- C2, amended: `getValue()` yields the offset of the value from
`minimumValue`, without adding `minimumValue` to it. For a slider at the top of
its parent (`getY()` equal to `_parent->getY()`), a value range with
`0 <= max - min <= 32767`, a client rect that starts at y 0 or 1 and every grip
position inside the gutter, it returns
`v = (max - min) * p / (rect.height - gripHeight + 1)`, with `p` the y of the
grip relative to the slider, and `0 <= v <= max - min`. -/
theorem getValue_in_gutter_offset (s : SliderVertical)
    (hrange : s.minimumValue ≤ s.maximumValue)
    (hspan : s.maximumValue - s.minimumValue ≤ 32767)
    (hgrip0 : 0 ≤ s.gripHeight) (hheight : s.rect.height ≤ 65535)
    (hy0 : 0 ≤ s.rect.y) (hy1 : s.rect.y ≤ 1)
    (htop : s.y = s.parentY)
    (hin : s.gripInGutter) :
    ∃ v, s.getValue = .ok v ∧
      v = (s.maximumValue - s.minimumValue) * (s.gripY - s.y)
        / (s.rect.height - s.gripHeight + 1) ∧
      0 ≤ v ∧ v ≤ s.maximumValue - s.minimumValue := by
  obtain ⟨hin1, hin2⟩ := hin
  rw [htop] at hin1 hin2
  obtain ⟨e1, e2, e3⟩ := getValue_of_offset_bounds s hrange hspan (by omega) hgrip0 hheight
    (by unfold gripOffset; omega) (by unfold gripOffset; omega)
  refine ⟨_, e1, ?_, e2, e3⟩
  rw [htop]

/-- Witness of C2, amended: with value range 0..50, the slider at the top of
its parent and the grip at the bottom of the gutter, the value returned is 50. -/
theorem getValue_in_gutter_offset_witness :
    sliderGripAtBottom.gripInGutter ∧ sliderGripAtBottom.y = sliderGripAtBottom.parentY ∧
      ∃ v, sliderGripAtBottom.getValue = .ok v ∧
        v = (sliderGripAtBottom.maximumValue - sliderGripAtBottom.minimumValue)
          * (sliderGripAtBottom.gripY - sliderGripAtBottom.y)
          / (sliderGripAtBottom.rect.height - sliderGripAtBottom.gripHeight + 1) ∧
        0 ≤ v ∧ v ≤ sliderGripAtBottom.maximumValue - sliderGripAtBottom.minimumValue :=
  ⟨⟨by decide, by decide⟩, by decide,
    getValue_in_gutter_offset sliderGripAtBottom (by decide) (by decide) (by decide) (by decide)
      (by decide) (by decide) (by decide) ⟨by decide, by decide⟩⟩

/-- Away from the top of its parent `getValue()` does not measure the grip from
the slider: it subtracts `_parent->getY()` where `click` subtracts `getY()`.
With the slider 50 pixels down in its parent, value range 0..50 and the grip at
the bottom of the gutter, the value returned is 78, while the same slider at
the top of its parent returns 50. -/
theorem getValue_measures_from_parent :
    sliderBelowParentTop.gripInGutter ∧
      sliderBelowParentTop.gripY - sliderBelowParentTop.y
        = sliderGripAtBottom.gripY - sliderGripAtBottom.y ∧
      sliderGripAtBottom.getValue = .ok 50 ∧
      sliderBelowParentTop.getValue = .ok 78 ∧
      ¬ ((78 : Int) ≤ sliderBelowParentTop.maximumValue - sliderBelowParentTop.minimumValue) :=
  ⟨⟨by decide, by decide⟩, by decide, rfl, rfl, by decide⟩

end SliderVertical

/-! ## SliderVertical::click -/

namespace SliderVertical

theorem range_succ_reverse (n : Nat) :
    (List.range (n + 1)).reverse = n :: (List.range n).reverse := by
  rw [List.range_succ, List.reverse_append]
  rfl

/-- The loop of `click` walks the children from index `n - 1` down to 0 and
stops at the first one that accepts. -/
theorem clickChildren_spec (gadgets : List ChildGadget) (x y : Int) (n : Nat)
    (hn : n ≤ gadgets.length) :
    clickChildren gadgets x y n =
      .ok (offerUntilAccepted (childAccepts gadgets x y) (List.range n).reverse,
           firstAccepted (childAccepts gadgets x y) (List.range n).reverse) := by
  induction n with
  | zero => rfl
  | succ n ih =>
    have hlt : n < gadgets.length := by omega
    have hacc : childAccepts gadgets x y n = (gadgets.get ⟨n, hlt⟩).click x y := by
      simp [childAccepts, List.getElem?_eq_getElem hlt]
    rw [range_succ_reverse]
    simp only [clickChildren, readSlot_of_lt gadgets n hlt, bind, Except.bind, offerUntilAccepted,
      firstAccepted, hacc]
    by_cases hc : (gadgets.get ⟨n, hlt⟩).click x y = true
    · simp only [hc, if_true]
      rfl
    · simp only [hc, if_false, ih (by omega)]
      rfl

/-- The offers form an initial stretch of the top-down order. -/
theorem offerUntilAccepted_isPrefix (accepts : Nat → Bool) (l : List Nat) :
    offerUntilAccepted accepts l <+: l := by
  induction l with
  | nil => exact List.prefix_refl _
  | cons i rest ih =>
    unfold offerUntilAccepted
    by_cases hc : accepts i = true
    · rw [if_pos hc]
      exact ⟨rest, rfl⟩
    · rw [if_neg hc]
      exact (List.prefix_cons_inj i).2 ih

/-- When a child accepts, it is the lowest child offered and every child
offered above it has refused. -/
theorem offers_stop_at_accepted (accepts : Nat → Bool) (n a : Nat)
    (h : firstAccepted accepts (List.range n).reverse = some a) :
    a < n ∧ accepts a = true ∧ a ∈ offerUntilAccepted accepts (List.range n).reverse ∧
      ∀ j ∈ offerUntilAccepted accepts (List.range n).reverse,
        a ≤ j ∧ j < n ∧ (a < j → accepts j = false) := by
  induction n with
  | zero => cases h
  | succ n ih =>
    rw [range_succ_reverse] at h ⊢
    unfold firstAccepted at h
    unfold offerUntilAccepted
    by_cases hc : accepts n = true
    · rw [if_pos hc] at h
      rw [if_pos hc]
      cases h
      refine ⟨by omega, hc, List.mem_singleton.2 rfl, ?_⟩
      intro j hj
      rw [List.mem_singleton] at hj
      subst hj
      exact ⟨le_refl _, by omega, fun hlt => absurd hlt (lt_irrefl _)⟩
    · rw [if_neg hc] at h
      rw [if_neg hc]
      obtain ⟨h1, h2, h3, h4⟩ := ih h
      refine ⟨by omega, h2, List.mem_cons_of_mem _ h3, ?_⟩
      intro j hj
      rcases List.mem_cons.1 hj with hj | hj
      · subst hj
        exact ⟨by omega, by omega, fun _ => by simpa using hc⟩
      · obtain ⟨g1, g2, g3⟩ := h4 j hj
        exact ⟨g1, by omega, g3⟩

/-- When no child accepts, every child has been offered the click, top down. -/
theorem offers_all_when_none_accepts (accepts : Nat → Bool) (n : Nat)
    (h : firstAccepted accepts (List.range n).reverse = none) :
    offerUntilAccepted accepts (List.range n).reverse = (List.range n).reverse ∧
      ∀ j, j < n → accepts j = false := by
  induction n with
  | zero => exact ⟨rfl, fun j hj => absurd hj (Nat.not_lt_zero j)⟩
  | succ n ih =>
    rw [range_succ_reverse] at h ⊢
    unfold firstAccepted at h
    unfold offerUntilAccepted
    by_cases hc : accepts n = true
    · rw [if_pos hc] at h
      cases h
    · rw [if_neg hc] at h
      rw [if_neg hc]
      obtain ⟨h1, h2⟩ := ih h
      refine ⟨by rw [h1], ?_⟩
      intro j hj
      by_cases hjn : j = n
      · subst hjn
        simpa using hc
      · exact h2 j (by omega)

/-- The start of the loop counter: for at most 32768 children the `s16`
counter starts at the last child. -/
theorem click_loop_start (n : Nat) (hn : n ≤ 32768) :
    (if toS16 (((n % U32_MOD + U32_MOD - 1) % U32_MOD : Nat) : Int) > -1 then
      (toS16 (((n % U32_MOD + U32_MOD - 1) % U32_MOD : Nat) : Int)).toNat + 1 else 0) = n := by
  unfold toS16 U32_MOD
  split <;> omega

/-- C3: on an enabled slider and a point inside its bounds `click` returns
true after offering the point to the children from the last one (top of the
z-order) down, stopping at the first child that accepts: the accepting child is
the lowest one offered and every child offered above it refused. On a disabled
slider, or for a point outside the bounds, `click` returns false and no child
is offered the point. -/
theorem click_offers_top_down (s : SliderVertical) (x y : Int)
    (hn : s.gadgets.length ≤ 32768) :
    (s.enabled = true → s.checkCollision x y = true →
      ∃ r, s.click x y = .ok r ∧ r.result = true ∧
        r.offered = offerUntilAccepted (childAccepts s.gadgets x y)
          (List.range s.gadgets.length).reverse ∧
        r.offered <+: (List.range s.gadgets.length).reverse ∧
        r.clickedGadget = firstAccepted (childAccepts s.gadgets x y)
          (List.range s.gadgets.length).reverse ∧
        (∀ a, r.clickedGadget = some a →
          childAccepts s.gadgets x y a = true ∧ a ∈ r.offered ∧
          ∀ j ∈ r.offered, a ≤ j ∧ (a < j → childAccepts s.gadgets x y j = false)) ∧
        (r.clickedGadget = none →
          r.offered = (List.range s.gadgets.length).reverse ∧
          ∀ j, j < s.gadgets.length → childAccepts s.gadgets x y j = false)) ∧
    ((s.enabled = false ∨ s.checkCollision x y = false) →
      s.click x y = .ok { result := false, offered := [], clickedGadget := none, movedTo := none }) := by
  refine ⟨?_, ?_⟩
  · intro he hc
    have hwalk := clickChildren_spec s.gadgets x y s.gadgets.length (le_refl _)
    have key : ∃ r, s.click x y = .ok r ∧ r.result = true ∧
        r.offered = offerUntilAccepted (childAccepts s.gadgets x y)
          (List.range s.gadgets.length).reverse ∧
        r.clickedGadget = firstAccepted (childAccepts s.gadgets x y)
          (List.range s.gadgets.length).reverse := by
      unfold click
      rw [if_pos he, if_pos hc]
      simp only []
      rw [click_loop_start _ hn]
      simp only [hwalk, bind, Except.bind]
      cases hf : firstAccepted (childAccepts s.gadgets x y) (List.range s.gadgets.length).reverse with
      | none => exact ⟨_, rfl, rfl, rfl, rfl⟩
      | some c => exact ⟨_, rfl, rfl, rfl, rfl⟩
    obtain ⟨r, h1, h2, h3, h4⟩ := key
    refine ⟨r, h1, h2, h3, ?_, h4, ?_, ?_⟩
    · rw [h3]
      exact offerUntilAccepted_isPrefix _ _
    · intro a ha
      rw [h4] at ha
      obtain ⟨_, g2, g3, g4⟩ := offers_stop_at_accepted _ _ _ ha
      rw [h3]
      exact ⟨g2, g3, fun j hj => ⟨(g4 j hj).1, (g4 j hj).2.2⟩⟩
    · intro hnone
      rw [h4] at hnone
      rw [h3]
      exact offers_all_when_none_accepts _ _ hnone
  · intro h
    rcases h with h | h
    · simp [click, h]
    · simp only [click, h]
      split <;> rfl

/-- Witness of C3: of three children the middle one accepts; the top child
and the middle child are offered the click, the bottom child is not. -/
theorem click_offers_top_down_witness :
    ∃ r, sliderThreeChildren.click 5 60 = .ok r ∧ r.result = true ∧ r.offered = [2, 1] ∧
      r.clickedGadget = some 1 := by
  obtain ⟨r, h1, h2, h3, _, h5, _, _⟩ :=
    (click_offers_top_down sliderThreeChildren 5 60 (by decide)).1 rfl (by decide)
  exact ⟨r, h1, h2, by rw [h3]; decide, by rw [h5]; decide⟩

end SliderVertical

/-! ## ScrollingListBox: event suppression -/

namespace ScrollingListBox

/-- C4, as stated, fails: a list box whose raises-events flag was off before
`handleValueChangeEvent` ran has it on when the handler returns. -/
theorem handleValueChangeEvent_flag_not_restored :
    Option.map ListBoxPeer.raisesEvents quietListBox.listbox = some false ∧
      Option.map ListBoxPeer.raisesEvents
        (quietListBox.handleValueChangeEvent EventSource.scrollbar).listbox = some true ∧
      Option.map ListBoxPeer.jumps
        (quietListBox.handleValueChangeEvent EventSource.scrollbar).listbox
        = some [(-30, false)] := by
  decide

/-- C4, amended: the suppression lasts for the handler only and the flag is
then switched on, not restored. `handleValueChangeEvent` for an event of the
scrollbar performs its `jump` on the list box with the list box's
raises-events flag off and returns with that flag on; `handleScrollEvent` for
an event of the list box performs its `setValue` on the scrollbar with the
scrollbar's raises-events flag off and returns with that flag on; the other
child is untouched, and an event of any other source changes nothing. -/
theorem handlers_suppress_then_enable (lb : ListBoxPeer) (sb : ScrollbarPeer)
    (s : ScrollingListBox) (source : EventSource) :
    handleValueChangeEvent { listbox := some lb, scrollbar := some sb } EventSource.scrollbar
        = { listbox := some { lb with raisesEvents := true,
                                      jumps := lb.jumps ++ [(0 - sb.value * lb.optionHeight, false)] },
            scrollbar := some sb } ∧
      (lb.optionHeight ≠ 0 →
        ∃ v, scrollValue lb.canvasY lb.optionHeight = .ok v ∧
          handleScrollEvent { listbox := some lb, scrollbar := some sb } EventSource.listbox
            = .ok { listbox := some lb,
                    scrollbar := some { sb with raisesEvents := true,
                                                setValues := sb.setValues ++ [(toS16 v, false)] } }) ∧
      (source ≠ EventSource.scrollbar → handleValueChangeEvent s source = s) ∧
      (source ≠ EventSource.listbox → handleScrollEvent s source = .ok s) := by
  refine ⟨rfl, ?_, ?_, ?_⟩
  · intro h
    have hv : scrollValue lb.canvasY lb.optionHeight =
        .ok (toS32 (Int.tdiv (toS32 ((0 - lb.canvasY) * 65536)) lb.optionHeight
          + Int.land (Int.tdiv (toS32 ((0 - lb.canvasY) * 65536)) lb.optionHeight) 32768) / 65536) := by
      simp only [scrollValue, h, if_false]
    refine ⟨_, hv, ?_⟩
    simp only [handleScrollEvent, hv, bind, Except.bind, pure, Except.pure]
    rfl
  · intro h
    cases source <;> first | exact absurd rfl h | rfl
  · intro h
    cases source <;> first | exact absurd rfl h | rfl

/-- Witness of C4, amended: a scroll of the list box by 25 pixels with options
10 pixels high reaches the scrollbar as `setValue(3)` with its flag off, and
the scrollbar's flag is on afterwards. -/
theorem handlers_suppress_then_enable_witness :
    ∃ v, scrollValue (-25) 10 = .ok v ∧ v = 3 ∧
      scrolledListBox.handleScrollEvent EventSource.listbox
        = .ok { listbox := scrolledListBox.listbox,
                scrollbar := some { raisesEvents := true, value := 0,
                                    setValues := [(toS16 v, false)] } } := by
  obtain ⟨v, hv, h⟩ := (handlers_suppress_then_enable
    { raisesEvents := true, canvasY := -25, optionHeight := 10, jumps := [] }
    { raisesEvents := true, value := 0, setValues := [] } scrolledListBox EventSource.other).2.1
    (by decide)
  have h3 : scrollValue (-25) 10 = .ok 3 := rfl
  exact ⟨v, hv, Except.ok.inj (hv.symm.trans h3), h⟩

end ScrollingListBox

/-! ## Loops -/

/-- A `while` loop whose body acts as the function `f` runs `n` rounds when
the test holds for the first `n` states and fails for the next one. -/
theorem whileLoop_iterate {σ : Type} (test : σ → Bool) (body : σ → Except Fault σ) (f : σ → σ)
    (n : Nat) (s : σ) (fuel : Nat)
    (hstep : ∀ k, k < n → test (f^[k] s) = true ∧ body (f^[k] s) = .ok (f^[k + 1] s))
    (hstop : test (f^[n] s) = false) (hfuel : n < fuel) :
    whileLoop test body fuel s = .ok (f^[n] s) := by
  induction n generalizing s fuel with
  | zero =>
    obtain ⟨fuel, rfl⟩ : ∃ m, fuel = m + 1 := ⟨fuel - 1, by omega⟩
    have h0 : test s = false := hstop
    simp [whileLoop, h0]
  | succ n ih =>
    obtain ⟨fuel, rfl⟩ : ∃ m, fuel = m + 1 := ⟨fuel - 1, by omega⟩
    obtain ⟨h1, h2⟩ := hstep 0 (Nat.succ_pos n)
    have h1a : test s = true := h1
    have h2a : body s = .ok (f s) := h2
    simp only [whileLoop, h1a, if_true, h2a]
    rw [Function.iterate_succ_apply]
    apply ih (f s) fuel
    · intro k hk
      have := hstep (k + 1) (by omega)
      simpa only [Function.iterate_succ_apply] using this
    · simpa only [Function.iterate_succ_apply] using hstop
    · omega

/-! ## MultiLineTextBox: drawText -/

namespace MultiLineTextBox

theorem iterate_rows (k : Nat) (lo : Int) (acc : List Int) :
    (fun st : Int × List Int => (st.1 + 1, st.2 ++ [st.1]))^[k] (lo, acc)
      = (lo + (k : Int), acc ++ List.map (fun j : Nat => lo + (j : Int)) (List.range k)) := by
  induction k with
  | zero => simp
  | succ k ih =>
    rw [Function.iterate_succ_apply', ih, List.range_succ, List.map_append]
    simp only [List.map_cons, List.map_nil, List.append_assoc, Nat.cast_succ, add_assoc]

/-- C12: `drawText` clips the rows it is given. For every `topRow` and
`bottomRow` and a text of `n` lines it returns after passing to the text
exactly the rows of the interval `[max(topRow, 0), min(bottomRow, n - 1)]`,
each once, in ascending order, and each of them satisfies `0 <= row < n`. -/
theorem drawText_rows_clipped (fuel : Nat) (b : MultiLineTextBox) (topRow bottomRow : Int)
    (hn : b.text.getLineCount < 2147483648) (hfuel : b.text.getLineCount < (fuel : Int)) :
    ∃ rows, drawText fuel b topRow bottomRow = .ok rows ∧
      rows = rowInterval (max topRow 0) (min bottomRow (b.text.getLineCount - 1)) ∧
      ∀ r ∈ rows, 0 ≤ r ∧ r < b.text.getLineCount := by
  have hn0 : 0 ≤ b.text.getLineCount := by simp [Text.getLineCount]
  generalize hN : b.text.getLineCount = n at hn hfuel hn0
  have hmem : ∀ r ∈ rowInterval (max topRow 0) (min bottomRow (n - 1)), 0 ≤ r ∧ r < n := by
    intro r hr
    simp only [rowInterval, List.mem_map, List.mem_range] at hr
    obtain ⟨j, hj, rfl⟩ := hr
    omega
  refine ⟨rowInterval (max topRow 0) (min bottomRow (n - 1)), ?_, rfl, hmem⟩
  unfold drawText
  rw [hN]
  by_cases h1 : topRow < 0 ∧ bottomRow < 0
  · rw [if_pos h1]
    have : (min bottomRow (n - 1) + 1 - max topRow 0).toNat = 0 := by omega
    simp [rowInterval, this]
  · rw [if_neg h1]
    by_cases h2 : bottomRow ≥ n ∧ topRow ≥ n
    · rw [if_pos h2]
      have : (min bottomRow (n - 1) + 1 - max topRow 0).toNat = 0 := by omega
      simp [rowInterval, this]
    · rw [if_neg h2]
      have e1 : (if topRow < 0 then 0 else topRow) = max topRow 0 := by
        split <;> omega
      have e2 : (if bottomRow ≥ n then n - 1 else bottomRow) = min bottomRow (n - 1) := by
        split <;> omega
      simp only [e1, e2]
      generalize hlo : max topRow 0 = lo
      generalize hhi : min bottomRow (n - 1) = hi
      have hlo0 : 0 ≤ lo := by omega
      have hhin : hi < n := by omega
      have hloop := whileLoop_iterate (fun st : Int × List Int => decide (st.1 ≤ hi))
        (fun st => .ok (toS32 (st.1 + 1), st.2 ++ [st.1]))
        (fun st : Int × List Int => (st.1 + 1, st.2 ++ [st.1]))
        (hi + 1 - lo).toNat (lo, []) fuel
        (by
          intro k hk
          rw [iterate_rows, iterate_rows]
          refine ⟨by simp only [decide_eq_true_eq]; omega, ?_⟩
          simp only [iterate_rows]
          rw [toS32_of_small _ (by omega) (by omega)]
          simp only [List.nil_append, List.range_succ, List.map_append, List.map_cons,
            List.map_nil, Nat.cast_succ, add_assoc])
        (by
          rw [iterate_rows]
          simp only [decide_eq_false_iff_not]
          omega)
        (by omega)
      rw [hloop, iterate_rows]
      simp [rowInterval]

/-- Witness of C12: on a text of three lines the rows -1..7 are clipped to the
rows 0, 1, 2. -/
theorem drawText_rows_clipped_witness :
    ∃ rows, drawText 10 threeLineBox (-1) 7 = .ok rows ∧ rows = [0, 1, 2] := by
  obtain ⟨rows, h1, h2, _⟩ := drawText_rows_clipped 10 threeLineBox (-1) 7 (by decide) (by decide)
  refine ⟨rows, h1, ?_⟩
  rw [h2]
  decide

end MultiLineTextBox

/-! ## MultiLineTextBox: getPageCount and the constructor -/

namespace MultiLineTextBox

theorem toU16_of_small (n : Int) (h1 : 0 ≤ n) (h2 : n < 65536) : toU16 n = n := by
  unfold toU16
  omega

/-- What `getPageCount` computes: `n / v + 1` for `n` lines and `v > 0` visible
rows. When `v` does not divide `n` this is the least number of pages that hold
the text; when `v` divides `n` already `n / v` pages hold it. -/
theorem getPageCount_eq (b : MultiLineTextBox) (hv : 0 < b.visibleRows)
    (hn : b.text.getLineCount < 65535) :
    b.getPageCount = b.text.getLineCount / b.visibleRows + 1 ∧
      (b.text.getLineCount % b.visibleRows ≠ 0 →
        b.text.getLineCount ≤ b.getPageCount * b.visibleRows ∧
        (b.getPageCount - 1) * b.visibleRows < b.text.getLineCount) ∧
      (b.text.getLineCount % b.visibleRows = 0 →
        b.text.getLineCount ≤ (b.getPageCount - 1) * b.visibleRows) := by
  have hn0 : 0 ≤ b.text.getLineCount := by simp [Text.getLineCount]
  have hq0 : 0 ≤ b.text.getLineCount / b.visibleRows := Int.ediv_nonneg hn0 (by omega)
  have hq1 : b.text.getLineCount / b.visibleRows ≤ b.text.getLineCount := Int.ediv_le_self _ hn0
  have hdiv := Int.ediv_add_emod b.text.getLineCount b.visibleRows
  have hr0 := Int.emod_nonneg b.text.getLineCount (by omega : b.visibleRows ≠ 0)
  have hr1 := Int.emod_lt_of_pos b.text.getLineCount hv
  have hP : b.getPageCount = b.text.getLineCount / b.visibleRows + 1 := by
    unfold getPageCount
    rw [if_pos hv, Int.tdiv_eq_ediv hn0 (by omega), toU16_of_small _ hq0 (by omega),
      toU16_of_small _ (by omega) (by omega)]
  rw [hP]
  generalize b.text.getLineCount / b.visibleRows = q at *
  generalize b.text.getLineCount % b.visibleRows = r at *
  generalize b.text.getLineCount = n at *
  generalize b.visibleRows = v at *
  have e1 : (q + 1) * v = v * q + v := by ring
  have e2 : (q + 1 - 1) * v = v * q := by ring
  rw [e1, e2]
  refine ⟨rfl, fun h => ⟨by omega, by omega⟩, fun h => by omega⟩

/-- C13: the page count claimed is not the one returned when the text fills
its pages exactly. A text of 5 lines in a box that shows 5 rows spans one page
(1 * 5 >= 5), and `getPageCount` returns 2. -/
theorem getPageCount_full_page_counts_two :
    fullPageBox.text.getLineCount = 5 ∧ fullPageBox.visibleRows = 5 ∧
      fullPageBox.getPageCount = 2 ∧ fullPageBox.text.getLineCount ≤ 1 * fullPageBox.visibleRows := by
  decide

/-- The row check keeps the row limit, the visible rows and the cursor. -/
theorem ensureRows_fields (b : MultiLineTextBox) :
    (ensureRows b).maxRows = b.maxRows ∧ (ensureRows b).visibleRows = b.visibleRows ∧
      (ensureRows b).cursorPos = b.cursorPos := by
  unfold ensureRows
  split <;> exact ⟨rfl, rfl, rfl⟩

/-- C14, as stated, fails: a text box built with `maxRows = 0` on a client
rect 98 pixels high with a line height of 10 shows 9 rows and ends with a row
limit of 10. -/
theorem construct_maxRows_zero_tracks_one_more :
    calculateVisibleRows 98 2 10 = .ok 9 ∧
      ∃ b, construct wrapNewlines 98 10 [] 0 = .ok b ∧ b.visibleRows = 9 ∧ b.maxRows = 10 :=
  ⟨rfl, _, rfl, rfl, rfl⟩

/-- C14, amended: a text box built with `maxRows = 0` ends with a row limit of
one more than the number of visible rows computed by `calculateVisibleRows`. -/
theorem construct_maxRows_zero (wrap : List Char → List (List Char)) (rectHeight lineHeight : Int)
    (text : List Char) (hline : lineHeight ≠ 0) :
    ∃ b v, calculateVisibleRows rectHeight 2 lineHeight = .ok v ∧
      construct wrap rectHeight lineHeight text 0 = .ok b ∧
      b.visibleRows = v ∧ b.maxRows = v + 1 := by
  have hv : calculateVisibleRows rectHeight 2 lineHeight
      = .ok (Int.tdiv (rectHeight - 2 * 2) lineHeight) := by
    simp [calculateVisibleRows, hline]
  refine ⟨setText wrap
      { text := { chars := [], lines := wrap [] },
        maxRows := Int.tdiv (rectHeight - 2 * 2) lineHeight + 1,
        visibleRows := Int.tdiv (rectHeight - 2 * 2) lineHeight, cursorPos := 0 } text,
    _, hv, ?_, ?_, ?_⟩
  · simp only [construct, hv, if_true]
  · exact (ensureRows_fields _).2.1
  · exact (ensureRows_fields _).1

/-- Witness of C14, amended: client rect height 98 and line height 10 give 9
visible rows and a row limit of 10. -/
theorem construct_maxRows_zero_witness :
    ∃ b v, calculateVisibleRows 98 2 10 = .ok v ∧
      construct wrapNewlines 98 10 "hello".toList 0 = .ok b ∧
      b.visibleRows = v ∧ b.maxRows = v + 1 :=
  construct_maxRows_zero wrapNewlines 98 10 "hello".toList (by decide)

/-! ## MultiLineTextBox: drawCursor -/

/-- The row that holds a character index starts at or before that index. -/
theorem lineContaining_start_le (lines : List (List Char)) (index : Nat) :
    ((lines.take (Text.lineContaining lines index)).flatten).length ≤ index := by
  induction lines generalizing index with
  | nil => simp [Text.lineContaining]
  | cons l rest ih =>
    cases rest with
    | nil => simp [Text.lineContaining]
    | cons l2 rest2 =>
      by_cases h : index < l.length
      · simp [Text.lineContaining, h]
      · have := ih (index - l.length)
        simp only [Text.lineContaining, h, if_false, List.take_succ_cons, List.flatten_cons,
          List.length_append]
        omega

/-- One more character in front of a stretch adds its width. -/
theorem widthBetween_succ (charWidth : Char → Nat) (chars : List Char) (pos n : Nat)
    (h : pos < chars.length) :
    widthBetween charWidth chars pos (pos + (n + 1))
      = (charWidth (chars.get ⟨pos, h⟩) : Int) + widthBetween charWidth chars (pos + 1) (pos + 1 + n) := by
  unfold widthBetween
  have e1 : pos + (n + 1) - pos = n + 1 := by omega
  have e2 : pos + 1 + n - (pos + 1) = n := by omega
  rw [e1, e2, List.drop_eq_getElem_cons h]
  simp only [List.take_succ_cons, List.map_cons, List.sum_cons, Nat.cast_add, List.get_eq_getElem]

/-- The summing loop of `drawCursor`, run for `n` characters that lie inside
the text, adds their widths to `cursorX` modulo 65536. -/
theorem sumCursorWidths_eq (charWidth : Char → Nat) (chars : List Char) (n pos : Nat) (acc : Int)
    (hin : pos + n ≤ chars.length) (h0 : 0 ≤ acc) (h1 : acc < 65536) :
    sumCursorWidths charWidth chars n pos acc
      = .ok (toU16 (acc + widthBetween charWidth chars pos (pos + n))) := by
  induction n generalizing pos acc with
  | zero =>
    simp only [sumCursorWidths, widthBetween, Nat.add_zero, Nat.sub_self, List.take_zero,
      List.map_nil, List.sum_nil, Nat.cast_zero, add_zero]
    rw [toU16_of_small _ h0 h1]
  | succ n ih =>
    have hp : pos < chars.length := by omega
    simp only [sumCursorWidths, readSlot_of_lt chars pos hp]
    rw [ih (pos + 1) _ (by omega) (by unfold toU16; omega) (by unfold toU16; omega),
      widthBetween_succ charWidth chars pos n hp]
    congr 1
    unfold toU16
    omega

set_option maxRecDepth 20000 in
/-- C11, as stated, fails: in a row of 256 characters of width 1 with the
cursor at index 256, `drawCursor` places the cursor at x = 2, the x of the
row, while the row x plus the widths of the 256 characters before the cursor
is 258. -/
theorem drawCursor_long_row_drops_widths :
    (0 ≤ longRowBox.cursorPos ∧ longRowBox.cursorPos ≤ longRowBox.text.getLength) ∧
      drawCursor thinFontLayout longRowBox = .ok (some { row := 0, x := 2 }) ∧
      getRowX thinFontLayout longRowBox.text 0 + thinFontLayout.canvasX
        + widthBetween thinFontLayout.charWidth longRowBox.text.chars
            (longRowBox.text.getLineStartIndex 0) 256 = 258 := by
  refine ⟨by decide, rfl, by decide⟩

/-- C11, amended: for a cursor position `c` inside the text whose distance
from the start of its row is at most 255 characters, the `cursorX` of
`drawCursor` is, as the `u16` it is held in, `getRowX(r) + canvasX` plus the
sum of the font widths of the characters from the start of row `r` up to, but
not including, `c`, with `r` the row holding `c`; for `c = 0` it is row 0 and
the sum is empty. -/
theorem drawCursor_x (lay : TextBoxLayout) (b : MultiLineTextBox) (hshow : lay.showCursor = true)
    (hc1 : b.cursorPos ≤ (b.text.chars.length : Int))
    (hlen : b.text.chars.length < 4294967296) :
    (b.cursorPos = 0 →
      drawCursor lay b = .ok (some { row := 0, x := toU16 (getRowX lay b.text 0 + lay.canvasX) })) ∧
    (0 < b.cursorPos →
      b.cursorPos - (b.text.getLineStartIndex
        (b.text.getLineContainingCharIndex b.cursorPos.toNat) : Int) ≤ 255 →
      drawCursor lay b = .ok (some
        { row := b.text.getLineContainingCharIndex b.cursorPos.toNat,
          x := toU16 (getRowX lay b.text (b.text.getLineContainingCharIndex b.cursorPos.toNat)
                + lay.canvasX
                + widthBetween lay.charWidth b.text.chars
                    (b.text.getLineStartIndex (b.text.getLineContainingCharIndex b.cursorPos.toNat))
                    b.cursorPos.toNat) })) := by
  refine ⟨?_, ?_⟩
  · intro h0
    simp [drawCursor, hshow, h0]
  · intro hpos hoff
    have hu : toU32 b.cursorPos = b.cursorPos.toNat := by
      unfold toU32
      congr 1
      omega
    have hstart := lineContaining_start_le b.text.lines b.cursorPos.toNat
    have hstart1 : b.text.getLineStartIndex (b.text.getLineContainingCharIndex b.cursorPos.toNat)
        ≤ b.cursorPos.toNat := hstart
    generalize hS : b.text.getLineStartIndex (b.text.getLineContainingCharIndex b.cursorPos.toNat)
      = start at hstart1 hoff
    have hoff8 : (toU8 (b.cursorPos - (start : Int))).toNat = b.cursorPos.toNat - start := by
      unfold toU8
      omega
    have hsum := sumCursorWidths_eq lay.charWidth b.text.chars (b.cursorPos.toNat - start) start 0
      (by omega) (by omega) (by omega)
    have hstop : start + (b.cursorPos.toNat - start) = b.cursorPos.toNat := by omega
    rw [hstop] at hsum
    have hgt : b.cursorPos > 0 := hpos
    simp only [drawCursor, hshow, if_true, hgt, hu, hS, hoff8, hsum]
    congr 3
    unfold toU16
    omega

/-- Witness of C11, amended: in the text "ab", "cd" the cursor before the "d"
(index 4) is in row 1 and its x is the row x plus the width of "c". -/
theorem drawCursor_x_witness :
    drawCursor thinFontLayout twoRowBox = .ok (some
      { row := twoRowBox.text.getLineContainingCharIndex 4,
        x := toU16 (getRowX thinFontLayout twoRowBox.text (twoRowBox.text.getLineContainingCharIndex 4)
              + thinFontLayout.canvasX
              + widthBetween thinFontLayout.charWidth twoRowBox.text.chars
                  (twoRowBox.text.getLineStartIndex (twoRowBox.text.getLineContainingCharIndex 4))
                  4) }) ∧
      twoRowBox.text.getLineContainingCharIndex 4 = 1 ∧
      twoRowBox.text.getLineStartIndex 1 = 3 :=
  ⟨(drawCursor_x thinFontLayout twoRowBox rfl (by decide) (by decide)).2 (by decide) (by decide),
    by decide, by decide⟩

end MultiLineTextBox

/-! ## SliderVertical::resizeGrip -/

namespace SliderVertical

/-- Without overspill `resizeGrip` returns without touching the grip. -/
theorem resizeGrip_of_no_overspill (s : SliderVertical)
    (h : toS32 ((((s.maximumValue - s.minimumValue).natAbs : Int) - s.pageSize) * 256) ≤ 0) :
    s.resizeGrip = .ok s := by
  have hn : ¬ (toS32 ((((s.maximumValue - s.minimumValue).natAbs : Int) - s.pageSize) * 256) > 0) := by
    omega
  simp only [resizeGrip, hn, if_false]

/-- C15: the grip is not set to the full gutter height when the content fits
the page. With `|max - min| = 1 <= pageSize = 1`, a gutter 98 pixels high and a
grip that was 20 pixels high before, `resizeGrip` returns with the grip still
20 pixels high: the call of `_grip->resize` sits inside the overspill branch. -/
theorem resizeGrip_keeps_old_height :
    ((shrunkGripSlider.maximumValue - shrunkGripSlider.minimumValue).natAbs : Int)
        ≤ shrunkGripSlider.pageSize ∧
      shrunkGripSlider.rect.height = 98 ∧
      ∃ s1, shrunkGripSlider.resizeGrip = .ok s1 ∧ s1.gripHeight = 20 :=
  ⟨by decide, rfl, shrunkGripSlider, resizeGrip_of_no_overspill shrunkGripSlider (by decide), rfl⟩

/-- The part of C16 that the code meets: when there is overspill and the
fixed point ratio is not zero, `resizeGrip` returns with a grip height between
`_minimumGripHeight` and the gutter height. -/
theorem resizeGrip_height_in_range (s : SliderVertical)
    (hmin : 0 ≤ s.minimumGripHeight) (hh : s.minimumGripHeight ≤ s.rect.height)
    (hh16 : s.rect.height ≤ 65535) (hpos : 0 < s.rect.height)
    (hover : toS32 ((((s.maximumValue - s.minimumValue).natAbs : Int) - s.pageSize) * 256) > 0)
    (hratio : toU32 (Int.tdiv (((s.maximumValue - s.minimumValue).natAbs : Int) * 256)
      s.rect.height) ≠ 0) :
    ∃ s1, s.resizeGrip = .ok s1 ∧ s.minimumGripHeight ≤ s1.gripHeight ∧
      s1.gripHeight ≤ s.rect.height := by
  have hne : ¬ (s.rect.height = 0) := by omega
  simp only [resizeGrip, hover, if_true, hne, if_false, hratio]
  refine ⟨_, rfl, ?_, ?_⟩
  · show s.minimumGripHeight ≤ toU16 _
    unfold toU16
    split <;> split <;> omega
  · show toU16 _ ≤ s.rect.height
    unfold toU16
    split <;> split <;> omega

/-- C16: no grip height is set when the fixed point ratio is zero. With a
gutter 257 pixels high (at least the minimum grip height 5), value range 0..1
and page size 0 the content overflows the page, the ratio `(1 << 8) / 257` is
0, and `resizeGrip` divides the overspill by it. -/
theorem resizeGrip_zero_ratio_faults :
    tallGutterSlider.minimumGripHeight ≤ tallGutterSlider.rect.height ∧
      ((tallGutterSlider.maximumValue - tallGutterSlider.minimumValue).natAbs : Int)
        > tallGutterSlider.pageSize ∧
      toU32 (Int.tdiv (((tallGutterSlider.maximumValue - tallGutterSlider.minimumValue).natAbs
        : Int) * 256) tallGutterSlider.rect.height) = 0 ∧
      tallGutterSlider.resizeGrip = .error .divideByZero :=
  ⟨by decide, by decide, by decide, rfl⟩

end SliderVertical

/-! ## SliderVertical::setValue -/

namespace SliderVertical

/-- C17: the grip leaves the gutter for a negative value. With value range
0..100, a gutter of 109 pixels starting at y = 1 and a 10 pixel grip,
`setValue(-200)` computes `newGripY = -200`, which passes the check against
the bottom of the gutter, and moves the grip to `abs(-200) = 200`, far below
the bottom of the gutter at 110. -/
theorem setValue_negative_leaves_gutter :
    sliderHundred.maximumValue > sliderHundred.minimumValue ∧
      sliderHundred.setValue (-200) = .ok (some 200) ∧
      ¬ ((200 : Int) + sliderHundred.gripHeight ≤ sliderHundred.rect.y + sliderHundred.rect.height) :=
  ⟨by decide, rfl, by decide⟩

/-- The part of C17 that the code meets: for a value that is not negative, on
a slider whose value range is at least as long as the travel of the grip,
`setValue` moves the grip to a y inside the gutter. -/
theorem setValue_inside_gutter_of_nonneg (s : SliderVertical) (value : Int)
    (hv0 : 0 ≤ value) (hv1 : value ≤ 32767)
    (hg0 : 0 ≤ s.gripHeight) (hg1 : s.gripHeight ≤ s.rect.height)
    (hy0 : 0 ≤ s.rect.y) (hy1 : s.rect.y + s.rect.height ≤ 32767)
    (hspan : s.rect.height - s.gripHeight + 1 ≤ s.maximumValue - s.minimumValue)
    (hspan1 : s.maximumValue - s.minimumValue ≤ 65535) :
    ∃ y, s.setValue value = .ok (some y) ∧ 0 ≤ y ∧
      y + s.gripHeight ≤ s.rect.y + s.rect.height := by
  have hD : 0 < s.rect.height - s.gripHeight + 1 := by omega
  have hne : ¬ (s.rect.height - s.gripHeight + 1 = 0) := by omega
  have hM : 0 ≤ (s.maximumValue - s.minimumValue) * 256 := by omega
  have hpv : Int.tdiv ((s.maximumValue - s.minimumValue) * 256) (s.rect.height - s.gripHeight + 1)
      = (s.maximumValue - s.minimumValue) * 256 / (s.rect.height - s.gripHeight + 1) :=
    Int.tdiv_eq_ediv hM (by omega)
  have hpv1 : 256 ≤ (s.maximumValue - s.minimumValue) * 256 / (s.rect.height - s.gripHeight + 1) := by
    apply Int.le_ediv_of_mul_le hD
    nlinarith
  have hpv2 : (s.maximumValue - s.minimumValue) * 256 / (s.rect.height - s.gripHeight + 1)
      ≤ (s.maximumValue - s.minimumValue) * 256 := Int.ediv_le_self _ hM
  generalize hP : (s.maximumValue - s.minimumValue) * 256 / (s.rect.height - s.gripHeight + 1) = pv
    at hpv hpv1 hpv2
  have hpvs : toS32 pv = pv := toS32_of_small _ (by omega) (by omega)
  have hq : Int.tdiv (value * 256) pv = value * 256 / pv := Int.tdiv_eq_ediv (by omega) (by omega)
  have hq0 : 0 ≤ value * 256 / pv := Int.ediv_nonneg (by omega) (by omega)
  have hq1 : value * 256 / pv ≤ value := by
    apply Int.ediv_le_of_le_mul (by omega)
    nlinarith
  generalize hQ : value * 256 / pv = q at hq hq0 hq1
  have hpos : pv > 0 := by omega
  simp only [setValue, hne, if_false, hpv, hpvs, hpos, if_true, hq]
  rw [toS16_of_small q (by omega) (by omega)]
  by_cases hc : q + s.gripHeight > s.rect.y + s.rect.height
  · rw [if_pos hc, toS16_of_small (s.rect.y + s.rect.height - s.gripHeight) (by omega) (by omega)]
    have hab : (((s.rect.y + s.rect.height - s.gripHeight).natAbs : Nat) : Int)
        = s.rect.y + s.rect.height - s.gripHeight := by omega
    rw [hab, toS16_of_small (s.rect.y + s.rect.height - s.gripHeight) (by omega) (by omega)]
    exact ⟨_, rfl, by omega, by omega⟩
  · rw [if_neg hc]
    have hab : ((q.natAbs : Nat) : Int) = q := by omega
    rw [hab, toS16_of_small q (by omega) (by omega)]
    exact ⟨_, rfl, by omega, by omega⟩

end SliderVertical

/-! ## SliderVertical::click, gutter branch -/

namespace SliderVertical

/-- C18: the grip is moved past the bottom of the gutter on a slider whose
client rect starts at y = 0. A click below the grip (grip at 85, height 10,
gutter 0..100) asks for y = 95, which would end at 105, and the clamp puts the
grip at `(rect.height - gripHeight) + 1 = 91`, so that it ends at 101, one
pixel below the gutter. -/
theorem click_gutter_clamp_off_by_one :
    borderlessSlider.click 5 99
        = .ok { result := true, offered := [], clickedGadget := none, movedTo := some 91 } ∧
      ¬ ((91 : Int) + borderlessSlider.gripHeight
          ≤ borderlessSlider.rect.y + borderlessSlider.rect.height) :=
  ⟨rfl, by decide⟩

/-- The part of C18 that the code meets: on a slider whose client rect starts
at y = 1 (a slider with its border) a click on the gutter that no child
accepts moves the grip to a y inside the gutter, and that y is one grip height
from the old one, towards the click, whenever this lies inside the gutter. -/
theorem click_gutter_inside_of_bordered (s : SliderVertical) (x y : Int)
    (hen : s.enabled = true) (hcol : s.checkCollision x y = true)
    (hn : s.gadgets.length ≤ 32768)
    (hnone : firstAccepted (childAccepts s.gadgets x y) (List.range s.gadgets.length).reverse = none)
    (hy : s.rect.y = 1) (hg0 : 0 ≤ s.gripHeight) (hg1 : s.gripHeight ≤ s.rect.height)
    (hh : s.rect.height ≤ 32766)
    (hrel0 : -16384 ≤ s.gripY - s.y) (hrel1 : s.gripY - s.y ≤ 16383) :
    ∃ r m, s.click x y = .ok r ∧ r.movedTo = some m ∧
      s.rect.y ≤ m ∧ m + s.gripHeight ≤ s.rect.y + s.rect.height ∧
      (y > s.gripY → s.rect.y ≤ s.gripY - s.y + s.gripHeight →
        s.gripY - s.y + s.gripHeight + s.gripHeight ≤ s.rect.y + s.rect.height →
        m = s.gripY - s.y + s.gripHeight) ∧
      (y ≤ s.gripY → s.rect.y ≤ s.gripY - s.y - s.gripHeight →
        s.gripY - s.y ≤ s.rect.y + s.rect.height →
        m = s.gripY - s.y - s.gripHeight) := by
  have hwalk := clickChildren_spec s.gadgets x y s.gadgets.length (le_refl _)
  rw [hnone] at hwalk
  unfold click
  rw [if_pos hen, if_pos hcol]
  simp only []
  rw [click_loop_start _ hn]
  simp only [hwalk, bind, Except.bind, pure, Except.pure]
  refine ⟨_, _, rfl, rfl, ?_, ?_, ?_, ?_⟩
  · unfold toS16
    split <;> split <;> (try split) <;> omega
  · unfold toS16
    split <;> split <;> (try split) <;> omega
  · intro h1 h2 h3
    rw [if_pos h1]
    unfold toS16
    split <;> (try split) <;> omega
  · intro h1 h2 h3
    have h1n : ¬ (y > s.gripY) := by omega
    rw [if_neg h1n]
    unfold toS16
    split <;> (try split) <;> omega

end SliderVertical

/-! ## ScrollingListBox: the value passed to the scrollbar -/

namespace ScrollingListBox

/-- The mask `value & 0x8000` is bit 15 of the value. -/
theorem nat_and_32768 (m : Nat) : m &&& 32768 = if m / 32768 % 2 = 1 then 32768 else 0 := by
  apply Nat.eq_of_testBit_eq
  intro i
  have h1 : Nat.testBit 32768 i = decide (15 = i) := by
    have := @Nat.testBit_two_pow 15 i
    simpa using this
  have hb : Nat.testBit m 15 = decide (m / 32768 % 2 = 1) := by
    have := @Nat.testBit_to_div_mod 15 m
    simpa using this
  rw [Nat.testBit_and, h1]
  by_cases hi : 15 = i
  · subst hi
    by_cases hm : m / 32768 % 2 = 1
    · rw [if_pos hm, h1, hb]
      simp [hm]
    · rw [if_neg hm, hb]
      simp [hm]
  · have hd : decide (15 = i) = false := by simp [hi]
    rw [hd, Bool.and_false]
    split
    · rw [h1, hd]
    · simp

theorem int_land_32768 (v : Int) (hv : 0 ≤ v) :
    Int.land v 32768 = if v / 32768 % 2 = 1 then 32768 else 0 := by
  obtain ⟨m, rfl⟩ := Int.eq_ofNat_of_zero_le hv
  have h : Int.land (m : Int) 32768 = ((m &&& 32768 : Nat) : Int) := rfl
  rw [h, nat_and_32768]
  split <;> split <;> omega

/-- Rounding in 16.16 fixed point: adding bit 15 of the quotient to it and
dropping the fraction rounds `N / h` to the nearest integer, halves up. -/
theorem round_fixed_point (N h : Int) (hN0 : 0 ≤ N) (hh : 0 < h) :
    (N * 65536 / h + (if N * 65536 / h / 32768 % 2 = 1 then 32768 else 0)) / 65536
      = (2 * N + h) / (2 * h) := by
  have hdiv := Int.ediv_add_emod (N * 65536) h
  have hr0 := Int.emod_nonneg (N * 65536) (by omega : h ≠ 0)
  have hr1 := Int.emod_lt_of_pos (N * 65536) hh
  generalize N * 65536 / h = v at hdiv ⊢
  generalize N * 65536 % h = t at hdiv hr0 hr1
  have hv0 : 0 ≤ v := by
    by_contra hneg
    have : h * v ≤ -h := by nlinarith
    omega
  obtain ⟨a, f, hvf, hf0, hf1⟩ : ∃ a f : Int, v = 65536 * a + f ∧ 0 ≤ f ∧ f < 65536 :=
    ⟨v / 65536, v % 65536, by omega, by omega, by omega⟩
  have ha0 : 0 ≤ a := by omega
  have hprod : h * v = 65536 * (h * a) + h * f := by rw [hvf]; ring
  have hf0h : 0 ≤ h * f := mul_nonneg (by omega) hf0
  symm
  by_cases hbig : 32768 ≤ f
  · have hc : v / 32768 % 2 = 1 := by omega
    rw [if_pos hc]
    have hres : (v + 32768) / 65536 = a + 1 := by omega
    rw [hres]
    have hfl : 32768 * h ≤ h * f := by nlinarith
    have hfu : h * f ≤ 65535 * h := by nlinarith
    have e : 2 * h * (a + 1) = 2 * (h * a) + 2 * h := by ring
    exact ((Int.ediv_emod_unique (by omega : 0 < 2 * h)).2
      ⟨show (2 * N + h - 2 * h * (a + 1)) + 2 * h * (a + 1) = 2 * N + h by ring,
        by rw [e]; omega, by rw [e]; omega⟩).1
  · have hc : ¬ (v / 32768 % 2 = 1) := by omega
    rw [if_neg hc]
    have hres : (v + 0) / 65536 = a := by omega
    rw [hres]
    have hfu : h * f ≤ 32767 * h := by nlinarith
    exact ((Int.ediv_emod_unique (by omega : 0 < 2 * h)).2
      ⟨show (2 * N + h - 2 * h * a) + 2 * h * a = 2 * N + h by ring,
        by
          have e : 2 * h * a = 2 * (h * a) := by ring
          rw [e]; omega,
        by
          have e : 2 * h * a = 2 * (h * a) := by ring
          rw [e]; omega⟩).1

/-- C19: for a canvas offset `canvasY` in `-32767..0` and an option height
`h > 0` the value that `handleScrollEvent` passes to the scrollbar is
`-canvasY / h` rounded to the nearest integer, halves up:
`floor((2 * (-canvasY) + h) / (2 * h))`. -/
theorem handleScrollEvent_value_rounds (lb : ListBoxPeer) (sb : ScrollbarPeer)
    (hc0 : -32767 ≤ lb.canvasY) (hc1 : lb.canvasY ≤ 0) (hh : 0 < lb.optionHeight) :
    scrollValue lb.canvasY lb.optionHeight
        = .ok ((2 * (-lb.canvasY) + lb.optionHeight) / (2 * lb.optionHeight)) ∧
      handleScrollEvent { listbox := some lb, scrollbar := some sb } EventSource.listbox
        = .ok { listbox := some lb,
                scrollbar := some { sb with
                  raisesEvents := true,
                  setValues := sb.setValues ++
                    [((2 * (-lb.canvasY) + lb.optionHeight) / (2 * lb.optionHeight), false)] } } := by
  have hne : ¬ (lb.optionHeight = 0) := by omega
  have hN : toS32 ((0 - lb.canvasY) * 65536) = (-lb.canvasY) * 65536 := by
    rw [toS32_of_small _ (by omega) (by omega)]
    ring
  have hv : Int.tdiv ((-lb.canvasY) * 65536) lb.optionHeight
      = (-lb.canvasY) * 65536 / lb.optionHeight := Int.tdiv_eq_ediv (by omega) (by omega)
  have hv0 : 0 ≤ (-lb.canvasY) * 65536 / lb.optionHeight := Int.ediv_nonneg (by omega) (by omega)
  have hv1 : (-lb.canvasY) * 65536 / lb.optionHeight ≤ (-lb.canvasY) * 65536 :=
    Int.ediv_le_self _ (by omega)
  have hround := round_fixed_point (-lb.canvasY) lb.optionHeight (by omega) hh
  have hval : scrollValue lb.canvasY lb.optionHeight
      = .ok ((2 * (-lb.canvasY) + lb.optionHeight) / (2 * lb.optionHeight)) := by
    simp only [scrollValue, hne, if_false, hN, hv]
    rw [int_land_32768 _ hv0, toS32_of_small _ (by split <;> omega) (by split <;> omega), hround]
  have hq0 : 0 ≤ (2 * (-lb.canvasY) + lb.optionHeight) / (2 * lb.optionHeight) :=
    Int.ediv_nonneg (by omega) (by omega)
  have hq1 : (2 * (-lb.canvasY) + lb.optionHeight) / (2 * lb.optionHeight) < 32768 :=
    Int.ediv_lt_of_lt_mul (by omega) (by omega)
  refine ⟨hval, ?_⟩
  simp only [handleScrollEvent, hval, bind, Except.bind, pure, Except.pure,
    ScrollbarPeer.setRaisesEvents, ScrollbarPeer.setValue]
  rw [SliderVertical.toS16_of_small _ (by omega) (by omega)]

/-- Witness of C19: a list box scrolled by 25 pixels with options 10 pixels
high passes 3 (2.5 rounded up) to the scrollbar. -/
theorem handleScrollEvent_value_rounds_witness :
    scrollValue (-25) 10 = .ok 3 :=
  (handleScrollEvent_value_rounds
    { raisesEvents := true, canvasY := -25, optionHeight := 10, jumps := [] }
    { raisesEvents := true, value := 0, setValues := [] }
    (by decide) (by decide) (by decide)).1

end ScrollingListBox

/-! ## Calendar::populateGUI -/

/-- More fuel does not change the result of a loop that has finished. -/
theorem whileLoop_mono {σ : Type} (test : σ → Bool) (body : σ → Except Fault σ) (fuel : Nat)
    (s r : σ) (h : whileLoop test body fuel s = .ok r) (k : Nat) :
    whileLoop test body (fuel + k) s = .ok r := by
  induction fuel generalizing s with
  | zero => simp [whileLoop] at h
  | succ fuel ih =>
    have e : fuel + 1 + k = (fuel + k) + 1 := by omega
    rw [e]
    simp only [whileLoop] at h ⊢
    by_cases ht : test s = true
    · rw [if_pos ht] at h ⊢
      cases hb : body s with
      | error err => rw [hb] at h; simp at h
      | ok s1 =>
        rw [hb] at h
        exact ih s1 h
    · rw [if_neg ht] at h ⊢
      exact h

namespace Calendar

theorem dayWrites_succ (first firstLabel count : Nat) (enabled : Bool) (selectedDay : Option Nat) :
    dayWrites first firstLabel (count + 1) enabled selectedDay
      = dayWrites first firstLabel count enabled selectedDay ++
        [{ index := first + count, enabled := enabled,
           selected := enabled && decide (selectedDay = some (firstLabel + count)),
           label := firstLabel + count }] := by
  simp [dayWrites, List.range_succ]

/-- The state after `k` rounds of a day loop, as long as no `u8` wraps. -/
theorem advance_iterate (enabled : Bool) (selectedDay : Option Nat) (st : PopulateState) (k : Nat)
    (h1 : st.startDay + k ≤ 255) (h2 : st.updatedDays + k ≤ 255) (h3 : st.buttonIndex + k ≤ 255) :
    (advance enabled selectedDay)^[k] st = afterRounds enabled selectedDay st k := by
  induction k with
  | zero => simp [afterRounds, dayWrites]
  | succ k ih =>
    rw [Function.iterate_succ_apply', ih (by omega) (by omega) (by omega)]
    simp only [afterRounds, dayWrites_succ, advance, List.append_assoc]
    have e1 : (st.startDay + k + 1) % 256 = st.startDay + (k + 1) := by omega
    have e2 : (st.updatedDays + k + 1) % 256 = st.updatedDays + (k + 1) := by omega
    have e3 : (st.buttonIndex + k + 1) % 256 = st.buttonIndex + (k + 1) := by omega
    rw [e1, e2, e3]

/-- A day loop that runs `n` rounds over buttons that exist. -/
theorem dayLoop_run (test : PopulateState → Bool) (gadgetCount : Nat) (enabled : Bool)
    (selectedDay : Option Nat) (st : PopulateState) (n fuel : Nat)
    (h1 : st.startDay + n ≤ 255) (h2 : st.updatedDays + n ≤ 255) (h3 : st.buttonIndex + n ≤ 255)
    (hcount : st.buttonIndex + n ≤ gadgetCount)
    (htest : ∀ k, k < n → test (afterRounds enabled selectedDay st k) = true)
    (hstop : test (afterRounds enabled selectedDay st n) = false)
    (hfuel : n < fuel) :
    whileLoop test (writeButton gadgetCount enabled selectedDay) fuel st
      = .ok (afterRounds enabled selectedDay st n) := by
  have hloop := whileLoop_iterate test (writeButton gadgetCount enabled selectedDay)
    (advance enabled selectedDay) n st fuel
    (by
      intro k hk
      rw [Function.iterate_succ_apply',
        advance_iterate enabled selectedDay st k (by omega) (by omega) (by omega)]
      refine ⟨htest k hk, ?_⟩
      unfold writeButton
      rw [if_pos]
      show st.buttonIndex + k < gadgetCount
      omega)
    (by
      rw [advance_iterate enabled selectedDay st n h1 h2 h3]
      exact hstop)
    hfuel
  rw [hloop, advance_iterate enabled selectedDay st n h1 h2 h3]

/-- The search for the first button on the gadgets of `buildGUI` ends at
index 10, from every decoration count up to 10. -/
theorem locateFirstButton_buildGUI (fuel decorationCount : Nat) (hd : decorationCount ≤ 10)
    (hfuel : 12 ≤ fuel) :
    locateFirstButton fuel buildGUI decorationCount = .ok 10 := by
  have h12 : ∀ dc, dc ≤ 10 →
      (whileLoop (fun st : Nat × Option Nat => st.2.isNone && decide (st.1 < buildGUI.length))
        (locateStep buildGUI) 12 (dc % 256, none)).toOption = some (10, some 10) := by
    decide
  have h := h12 decorationCount hd
  cases hw : whileLoop (fun st : Nat × Option Nat => st.2.isNone && decide (st.1 < buildGUI.length))
      (locateStep buildGUI) 12 (decorationCount % 256, none) with
  | error e => rw [hw] at h; cases h
  | ok r =>
    rw [hw] at h
    have hr : r = (10, some 10) := Option.some.inj h
    subst hr
    have hm := whileLoop_mono _ _ 12 _ _ hw (fuel - 12)
    have e : 12 + (fuel - 12) = fuel := by omega
    rw [e] at hm
    simp only [locateFirstButton, hm]
    rfl

theorem dayWrites_index (first firstLabel count : Nat) (enabled : Bool)
    (selectedDay : Option Nat) :
    (dayWrites first firstLabel count enabled selectedDay).map DayButtonWrite.index
      = List.map (fun k : Nat => first + k) (List.range count) := by
  simp [dayWrites, Function.comp_def]

theorem shifted_range_append (a m n : Nat) :
    List.map (fun k : Nat => a + k) (List.range m)
        ++ List.map (fun k : Nat => a + m + k) (List.range n)
      = List.map (fun k : Nat => a + k) (List.range (m + n)) := by
  rw [List.range_add, List.map_append, List.map_map]
  congr 1
  apply List.map_congr_left
  intro k _
  simp [Nat.add_assoc]

/-- C20: on the grid of 6 x 7 = 42 day buttons that `buildGUI` makes,
`populateGUI` for a month that starts on week day `w` (0..6) and has `d` days
(28..31), after a month of `p` days, returns after writing, in order, `w`
disabled buttons labelled `p - w + 1 .. p`, then `d` enabled buttons labelled
`1 .. d`, then `42 - w - d` disabled buttons labelled `1 .. 42 - w - d`: the 42
grid buttons (indices 10..51 of `_gadgets`), each exactly once, and no other
gadget. -/
theorem populateGUI_fills_grid (fuel : Nat) (c : Calendar) (hg : c.refcons = buildGUI)
    (hdc : c.decorationCount ≤ 10) (hw : c.weekDay ≤ 6)
    (hd0 : 28 ≤ c.monthDays) (hd1 : c.monthDays ≤ 31)
    (hp0 : 28 ≤ c.previousMonthDays) (hp1 : c.previousMonthDays ≤ 31) (hfuel : 43 ≤ fuel) :
    ∃ st, populateGUI fuel c = .ok st ∧
      st.writes
        = dayWrites 10 (c.previousMonthDays - c.weekDay + 1) c.weekDay false none
          ++ dayWrites (10 + c.weekDay) 1 c.monthDays true c.selectedDay
          ++ dayWrites (10 + c.weekDay + c.monthDays) 1 (42 - c.weekDay - c.monthDays) false none ∧
      st.writes.map DayButtonWrite.index = List.map (fun k : Nat => 10 + k) (List.range 42) ∧
      st.updatedDays = 42 := by
  have hlen : buildGUI.length = 52 := by decide
  have hloc := locateFirstButton_buildGUI fuel c.decorationCount hdc (by omega)
  have hstart : (toU8 (((c.previousMonthDays : Int) - (c.weekDay : Int)) + 1)).toNat
      = c.previousMonthDays - c.weekDay + 1 := by
    unfold toU8
    omega
  -- the days of the previous month
  have h1 : (if c.weekDay ≠ 0 then
        match whileLoop (fun st : PopulateState => decide (st.startDay ≤ c.previousMonthDays))
            (writeButton 52 false none) fuel
            { startDay := c.previousMonthDays - c.weekDay + 1, updatedDays := 0,
              buttonIndex := 10, writes := [] } with
        | .ok st => Except.ok { st with startDay := 1 }
        | .error e => .error e
      else .ok { startDay := 1, updatedDays := 0, buttonIndex := 10, writes := [] })
      = (.ok { startDay := 1, updatedDays := c.weekDay, buttonIndex := 10 + c.weekDay,
               writes := dayWrites 10 (c.previousMonthDays - c.weekDay + 1) c.weekDay false none }
          : Except Fault PopulateState) := by
    by_cases hw0 : c.weekDay = 0
    · simp [hw0, dayWrites]
    · have hne : c.weekDay ≠ 0 := hw0
      rw [if_pos hne]
      rw [dayLoop_run _ 52 false none
        { startDay := c.previousMonthDays - c.weekDay + 1, updatedDays := 0,
          buttonIndex := 10, writes := [] } c.weekDay fuel
        (by show c.previousMonthDays - c.weekDay + 1 + c.weekDay ≤ 255; omega)
        (by show 0 + c.weekDay ≤ 255; omega)
        (by show 10 + c.weekDay ≤ 255; omega)
        (by show 10 + c.weekDay ≤ 52; omega)
        (by
          intro k hk
          simp only [afterRounds, decide_eq_true_eq]
          omega)
        (by
          simp only [afterRounds, decide_eq_false_iff_not]
          omega)
        (by omega)]
      simp [afterRounds]
  -- the days of the visible month
  have h2 : whileLoop (fun st : PopulateState => decide (st.startDay ≤ c.monthDays))
      (writeButton 52 true c.selectedDay) fuel
      { startDay := 1, updatedDays := c.weekDay, buttonIndex := 10 + c.weekDay,
        writes := dayWrites 10 (c.previousMonthDays - c.weekDay + 1) c.weekDay false none }
      = .ok { startDay := 1 + c.monthDays, updatedDays := c.weekDay + c.monthDays,
              buttonIndex := 10 + c.weekDay + c.monthDays,
              writes := dayWrites 10 (c.previousMonthDays - c.weekDay + 1) c.weekDay false none
                ++ dayWrites (10 + c.weekDay) 1 c.monthDays true c.selectedDay } := by
    rw [dayLoop_run _ 52 true c.selectedDay _ c.monthDays fuel
      (by show 1 + c.monthDays ≤ 255; omega)
      (by show c.weekDay + c.monthDays ≤ 255; omega)
      (by show 10 + c.weekDay + c.monthDays ≤ 255; omega)
      (by show 10 + c.weekDay + c.monthDays ≤ 52; omega)
      (by
        intro k hk
        simp only [afterRounds, decide_eq_true_eq]
        omega)
      (by
        simp only [afterRounds, decide_eq_false_iff_not]
        omega)
      (by omega)]
    rfl
  -- the days of the following month
  have h3 : whileLoop (fun st : PopulateState => decide (st.updatedDays < 42))
      (writeButton 52 false none) fuel
      { startDay := 1, updatedDays := c.weekDay + c.monthDays,
        buttonIndex := 10 + c.weekDay + c.monthDays,
        writes := dayWrites 10 (c.previousMonthDays - c.weekDay + 1) c.weekDay false none
          ++ dayWrites (10 + c.weekDay) 1 c.monthDays true c.selectedDay }
      = .ok { startDay := 1 + (42 - c.weekDay - c.monthDays),
              updatedDays := c.weekDay + c.monthDays + (42 - c.weekDay - c.monthDays),
              buttonIndex := 10 + c.weekDay + c.monthDays + (42 - c.weekDay - c.monthDays),
              writes := dayWrites 10 (c.previousMonthDays - c.weekDay + 1) c.weekDay false none
                ++ dayWrites (10 + c.weekDay) 1 c.monthDays true c.selectedDay
                ++ dayWrites (10 + c.weekDay + c.monthDays) 1 (42 - c.weekDay - c.monthDays)
                    false none } := by
    rw [dayLoop_run _ 52 false none _ (42 - c.weekDay - c.monthDays) fuel
      (by show 1 + (42 - c.weekDay - c.monthDays) ≤ 255; omega)
      (by show c.weekDay + c.monthDays + (42 - c.weekDay - c.monthDays) ≤ 255; omega)
      (by show 10 + c.weekDay + c.monthDays + (42 - c.weekDay - c.monthDays) ≤ 255; omega)
      (by show 10 + c.weekDay + c.monthDays + (42 - c.weekDay - c.monthDays) ≤ 52; omega)
      (by
        intro k hk
        simp only [afterRounds, decide_eq_true_eq]
        omega)
      (by
        simp only [afterRounds, decide_eq_false_iff_not]
        omega)
      (by omega)]
    rfl
  have hmax : (CALENDAR_ROWS * CALENDAR_COLS) % 256 = 42 := by decide
  refine ⟨{ startDay := 1 + (42 - c.weekDay - c.monthDays),
             updatedDays := c.weekDay + c.monthDays + (42 - c.weekDay - c.monthDays),
             buttonIndex := 10 + c.weekDay + c.monthDays + (42 - c.weekDay - c.monthDays),
             writes := dayWrites 10 (c.previousMonthDays - c.weekDay + 1) c.weekDay false none
               ++ dayWrites (10 + c.weekDay) 1 c.monthDays true c.selectedDay
               ++ dayWrites (10 + c.weekDay + c.monthDays) 1 (42 - c.weekDay - c.monthDays)
                   false none }, ?_, rfl, ?_, ?_⟩
  · simp only [populateGUI, hg, hloc, hlen, hstart, hmax, h1, h2, h3]
  · simp only [List.map_append, dayWrites_index]
    rw [shifted_range_append]
    have e : (fun k : Nat => 10 + c.weekDay + c.monthDays + k)
        = (fun k : Nat => 10 + (c.weekDay + c.monthDays) + k) := by
      funext k
      omega
    rw [e, shifted_range_append]
    congr 2
    omega
  · show c.weekDay + c.monthDays + (42 - c.weekDay - c.monthDays) = 42
    omega

/-- Witness of C20: a month of 30 days that starts on week day 3, after a
month of 31 days: 3 buttons labelled 29..31, 30 labelled 1..30, 9 labelled
1..9. -/
theorem populateGUI_fills_grid_witness :
    ∃ st, populateGUI 60 calendarThirtyDays = .ok st ∧
      st.writes = dayWrites 10 29 3 false none ++ dayWrites 13 1 30 true (some 15)
        ++ dayWrites 43 1 9 false none ∧
      st.writes.map DayButtonWrite.index = List.map (fun k : Nat => 10 + k) (List.range 42) := by
  obtain ⟨st, h1, h2, h3, _⟩ := populateGUI_fills_grid 60 calendarThirtyDays rfl (by decide)
    (by decide) (by decide) (by decide) (by decide) (by decide) (by decide)
  exact ⟨st, h1, h2, h3⟩

end Calendar

/-! ## DynamicArray: the loop counter of insert -/

namespace DynamicArray

variable {α : Type}

/-- The part of C21 that the code meets: for an index of at least 1 the
counter of the shifting loop, started at `i` with `index <= i + 1`, takes the
values `i, i - 1, .., index - 1` and stops there, so that the body runs
`i + 1 - index` times, the counter never wraps, and only the slots
`index .. i + 1` are touched. -/
theorem insertShiftCounters_spec (index : Nat) (hidx : 1 ≤ index) (fuel i : Nat) (data : List α)
    (hi : i + 1 < data.length) (hlen : data.length ≤ U32_MOD) (hle : index ≤ i + 1)
    (hfuel : i + 2 - index ≤ fuel) :
    insertShiftCounters index fuel i data
      = List.map (fun k : Nat => i - k) (List.range (i + 2 - index)) := by
  induction fuel generalizing i data with
  | zero => omega
  | succ fuel ih =>
    by_cases hge : i ≥ index
    · have hi0 : i < data.length := by omega
      have hm1 : (i + 1) % U32_MOD = i + 1 := Nat.mod_eq_of_lt (by omega)
      have hm2 : (i + U32_MOD - 1) % U32_MOD = i - 1 := by
        have : i + U32_MOD - 1 = (i - 1) + U32_MOD := by omega
        rw [this, Nat.add_mod_right]
        exact Nat.mod_eq_of_lt (by omega)
      simp only [insertShiftCounters, hge, if_true, readSlot_of_lt data i hi0, hm1, hm2,
        writeSlot_of_lt data (i + 1) _ hi]
      rw [ih (i - 1) (data.set (i + 1) (data.get ⟨i, hi0⟩))
        (by rw [List.length_set]; omega) (by rw [List.length_set]; exact hlen) (by omega)
        (by omega)]
      have hcount : i + 2 - index = (i - 1 + 2 - index) + 1 := by omega
      rw [hcount, List.range_succ_eq_map, List.map_cons, List.map_map, Nat.sub_zero]
      refine congrArg (List.cons i) ?_
      apply List.map_congr_left
      intro k _
      simp only [Function.comp_apply]
      omega
    · have hcount : i + 2 - index = 1 := by omega
      simp only [insertShiftCounters, hge, if_false, hcount]
      rfl

/-- C21: for index 0 the shifting loop of `insert` does not terminate after
`n - i` rounds. On the array holding `[1]` (n = 1, i = 0) the counter starts
at 0, the one round that the claim allows runs, and the decrement wraps the
`u32` counter to 4294967295; the test `i >= 0` holds again, the next round
reads slot 4294967295, outside the block, and no amount of fuel lets the loop
finish. -/
theorem insertShift_counter_wraps :
    insertShiftCounters 0 3 0 ((1 : Nat) :: List.replicate 15 0) = [0, 4294967295] ∧
      insertShift 0 3 0 ((1 : Nat) :: List.replicate 15 0) = .error .outOfBounds ∧
      ∀ fuel, (insertShift 0 fuel 0 ((1 : Nat) :: List.replicate 15 0)).toOption = none :=
  ⟨by decide, rfl, fun fuel => insertShift_zero_never_done fuel 0 _⟩

/-! ## DynamicArray: the slots that erase accesses -/

/-- The part of C22 that the code meets: on a block with a free slot after the
used ones the shifting loop of `erase` accesses the slots up to `size` only,
all of them inside the block. -/
theorem eraseShiftAccesses_inside (size fuel i : Nat) (data : List α) (hsz : size < data.length)
    (hlen : data.length ≤ U32_MOD) :
    ∀ a ∈ eraseShiftAccesses size fuel i data, a ≤ size ∧ a < data.length := by
  induction fuel generalizing i data with
  | zero => intro a ha; simp [eraseShiftAccesses] at ha
  | succ fuel ih =>
    intro a ha
    by_cases hlt : i < size
    · have hm : (i + 1) % U32_MOD = i + 1 := Nat.mod_eq_of_lt (by omega)
      have h1 : i + 1 < data.length := by omega
      have h0 : i < data.length := by omega
      simp only [eraseShiftAccesses, hlt, if_true, hm, readSlot_of_lt data (i + 1) h1,
        writeSlot_of_lt data i _ h0, List.mem_cons] at ha
      rcases ha with ha | ha | ha
      · omega
      · omega
      · have := ih (i + 1) (data.set i (data.get ⟨i + 1, h1⟩))
          (by rw [List.length_set]; exact hsz) (by rw [List.length_set]; exact hlen) a ha
        rw [List.length_set] at this
        exact this
    · simp [eraseShiftAccesses, hlt] at ha

/-- C22: `erase` reads a slot that is not below the reserved size when the
array is full. On the array holding the 16 elements `0..15` in its 16 reserved
slots, `erase(0)` shifts the slots 1..15 down and then, in the round for
`i = 15`, reads slot 16, the reserved size itself. -/
theorem erase_full_reads_reserved_size :
    eraseShiftAccesses 16 17 0 (List.range 16)
        = [1, 0, 2, 1, 3, 2, 4, 3, 5, 4, 6, 5, 7, 6, 8, 7, 9, 8, 10, 9, 11, 10, 12, 11, 13, 12,
           14, 13, 15, 14, 16] ∧
      16 ∈ eraseShiftAccesses 16 17 0 (List.range 16) ∧
      ¬ (16 < ({ data := List.range 16, size := 16, reservedSize := 16 }
          : DynamicArray Nat).reservedSize) ∧
      readSlot (List.range 16) 16 = .error .outOfBounds := by
  refine ⟨by decide, by decide, by decide, rfl⟩

end DynamicArray

/-! ## SliderVertical::resizeGrip: the two divisors -/

namespace SliderVertical

/-- C23: `resizeGrip` divides by zero on 16 bit inputs with positive
overspill. With a gutter of height 0 (value range 0..5, page size 1) the
divisor of the ratio is 0; with a gutter 600 pixels high (value range 0..2,
page size 1) the ratio `(2 << 8) / 600` is 0 and is the divisor of the
overspill. -/
theorem resizeGrip_divides_by_zero :
    (toS32 ((((flatGutterSlider.maximumValue - flatGutterSlider.minimumValue).natAbs : Int)
        - flatGutterSlider.pageSize) * 256) > 0 ∧
      flatGutterSlider.rect.height = 0 ∧
      flatGutterSlider.resizeGrip = .error .divideByZero) ∧
    (toS32 ((((longGutterSlider.maximumValue - longGutterSlider.minimumValue).natAbs : Int)
        - longGutterSlider.pageSize) * 256) > 0 ∧
      longGutterSlider.rect.height ≠ 0 ∧
      toU32 (Int.tdiv (((longGutterSlider.maximumValue - longGutterSlider.minimumValue).natAbs
        : Int) * 256) longGutterSlider.rect.height) = 0 ∧
      longGutterSlider.resizeGrip = .error .divideByZero) :=
  ⟨⟨by decide, rfl, rfl⟩, ⟨by decide, by decide, by decide, rfl⟩⟩

/-- When `resizeGrip` divides: with positive overspill it returns exactly when
neither the gutter height nor the fixed point ratio is zero, and without
overspill it performs no division at all. -/
theorem resizeGrip_returns_iff (s : SliderVertical) :
    (∃ s1, s.resizeGrip = .ok s1) ↔
      (toS32 ((((s.maximumValue - s.minimumValue).natAbs : Int) - s.pageSize) * 256) > 0 →
        s.rect.height ≠ 0 ∧
        toU32 (Int.tdiv (((s.maximumValue - s.minimumValue).natAbs : Int) * 256)
          s.rect.height) ≠ 0) := by
  unfold resizeGrip
  simp only []
  by_cases hover : toS32 ((((s.maximumValue - s.minimumValue).natAbs : Int) - s.pageSize) * 256) > 0
  · rw [if_pos hover]
    by_cases hh : s.rect.height = 0
    · rw [if_pos hh]
      constructor
      · rintro ⟨s1, h⟩
        cases h
      · intro h
        exact absurd hh (h hover).1
    · rw [if_neg hh]
      by_cases hr : toU32 (Int.tdiv (((s.maximumValue - s.minimumValue).natAbs : Int) * 256)
          s.rect.height) = 0
      · rw [if_pos hr]
        constructor
        · rintro ⟨s1, h⟩
          cases h
        · intro h
          exact absurd hr (h hover).2
      · rw [if_neg hr]
        exact ⟨fun _ _ => ⟨hh, hr⟩, fun _ => ⟨_, rfl⟩⟩
  · rw [if_neg hover]
    exact ⟨fun _ h => absurd h hover, fun _ => ⟨_, rfl⟩⟩

end SliderVertical

/-! ## MultiLineTextBox: the cursor invariant -/

namespace MultiLineTextBox

/-- `moveCursorToPosition` leaves the text alone. -/
theorem moveCursorToPosition_text (b : MultiLineTextBox) (p : Int) :
    (b.moveCursorToPosition p).text = b.text := by
  unfold moveCursorToPosition
  split <;> rfl

/-- `moveCursorToPosition` establishes the cursor invariant, whatever the
cursor was before. -/
theorem moveCursorToPosition_cursorInText (b : MultiLineTextBox) (p : Int)
    (hlen : b.text.getLength < 2147483648) :
    cursorInText (b.moveCursorToPosition p) := by
  have hs : toS32 (b.text.getLength : Int) = (b.text.getLength : Int) :=
    toS32_of_small _ (by omega) (by omega)
  unfold cursorInText
  rw [moveCursorToPosition_text]
  unfold moveCursorToPosition
  by_cases hp : p < 0
  · rw [if_pos hp]
    show (0 : Int) ≤ 0 ∧ (0 : Int) ≤ (b.text.getLength : Int)
    exact ⟨le_refl _, by omega⟩
  · rw [if_neg hp]
    simp only [hs]
    by_cases hc : (b.text.getLength : Int) > p
    · rw [if_pos hc]
      show 0 ≤ p ∧ p ≤ (b.text.getLength : Int)
      exact ⟨by omega, by omega⟩
    · rw [if_neg hc]
      show 0 ≤ (b.text.getLength : Int) ∧ (b.text.getLength : Int) ≤ (b.text.getLength : Int)
      exact ⟨by omega, le_refl _⟩

/-- The part of C24 that the code meets: the operations that end in
`moveCursorToPosition` (insertText, both removeText overloads,
moveCursorToPosition itself, onKeyPress, onKeyRepeat, processKey) keep the
cursor invariant, for texts whose length fits an `s32`. -/
theorem cursorInText_kept_by_cursor_ops (wrap : List Char → List (List Char))
    (b : MultiLineTextBox) (s : List Char) (index startIndex count : Nat) (p : Int)
    (keyCode : KeyCode) (key : WoopsiKey) (h : cursorInText b) :
    ((insertText wrap b s index).text.getLength < 2147483648 →
        cursorInText (insertText wrap b s index)) ∧
      ((removeTextFrom wrap b startIndex).text.getLength < 2147483648 →
        cursorInText (removeTextFrom wrap b startIndex)) ∧
      ((removeText wrap b startIndex count).text.getLength < 2147483648 →
        cursorInText (removeText wrap b startIndex count)) ∧
      (b.text.getLength < 2147483648 → cursorInText (moveCursorToPosition b p)) ∧
      (b.text.getLength < 2147483648 → cursorInText (onKeyPress b keyCode)) ∧
      (b.text.getLength < 2147483648 → cursorInText (onKeyRepeat b keyCode)) ∧
      ((processKey wrap b key).text.getLength < 2147483648 →
        cursorInText (processKey wrap b key)) := by
  refine ⟨?_, ?_, ?_, ?_, ?_, ?_, ?_⟩
  · intro hl
    unfold insertText at hl ⊢
    simp only [] at hl ⊢
    rw [moveCursorToPosition_text] at hl
    exact moveCursorToPosition_cursorInText _ _ hl
  · intro hl
    unfold removeTextFrom at hl ⊢
    rw [moveCursorToPosition_text] at hl
    exact moveCursorToPosition_cursorInText _ _ hl
  · intro hl
    unfold removeText at hl ⊢
    rw [moveCursorToPosition_text] at hl
    exact moveCursorToPosition_cursorInText _ _ hl
  · intro hl
    exact moveCursorToPosition_cursorInText _ _ hl
  · intro hl
    unfold onKeyPress
    cases keyCode with
    | left =>
      simp only []
      split
      · exact moveCursorToPosition_cursorInText _ _ hl
      · exact h
    | right =>
      simp only []
      split
      · exact moveCursorToPosition_cursorInText _ _ hl
      · exact h
    | other => exact h
  · intro hl
    unfold onKeyRepeat
    cases keyCode with
    | left =>
      simp only []
      split
      · exact moveCursorToPosition_cursorInText _ _ hl
      · exact h
    | right =>
      simp only []
      split
      · exact moveCursorToPosition_cursorInText _ _ hl
      · exact h
    | other => exact h
  · intro hl
    unfold processKey at hl ⊢
    by_cases hb : key.isBackspace = true
    · rw [if_pos hb] at hl ⊢
      by_cases hc : b.cursorPos > 0
      · rw [if_pos hc] at hl ⊢
        unfold removeText at hl ⊢
        rw [moveCursorToPosition_text] at hl
        exact moveCursorToPosition_cursorInText _ _ hl
      · rw [if_neg hc]
        exact h
    · rw [if_neg hb] at hl ⊢
      by_cases hv : key.value ≠ Char.ofNat 0
      · rw [if_pos hv] at hl ⊢
        unfold insertTextAtCursor insertText at hl ⊢
        simp only [] at hl ⊢
        rw [moveCursorToPosition_text] at hl
        exact moveCursorToPosition_cursorInText _ _ hl
      · rw [if_neg hv]
        exact h

/-- The cursor invariant holds after construction: the cursor is at 0. -/
theorem construct_cursorInText (wrap : List Char → List (List Char)) (rectHeight lineHeight : Int)
    (text : List Char) (maxRows : Int) (b : MultiLineTextBox)
    (h : construct wrap rectHeight lineHeight text maxRows = .ok b) :
    b.cursorPos = 0 ∧ cursorInText b := by
  unfold construct at h
  cases hv : calculateVisibleRows rectHeight 2 lineHeight with
  | error e => rw [hv] at h; cases h
  | ok v =>
    rw [hv] at h
    have hb := Except.ok.inj h
    have hc : b.cursorPos = 0 := by
      rw [← hb]
      exact (ensureRows_fields _).2.2
    refine ⟨hc, ?_⟩
    unfold cursorInText
    rw [hc]
    exact ⟨le_refl _, by omega⟩

/-- C24: the cursor invariant is not kept by setText and appendText, which
never touch `_cursorPos`. A text box holding "hello" with the cursor at index 5
satisfies the invariant; after `setText("hi")` the cursor is still 5 in a text
of length 2. A box limited to one row holding the line "aaaa" with the cursor
at index 5 satisfies it; after `appendText("b\n")` the first row is stripped
and the cursor is still 5 in a text of length 2. -/
theorem setText_leaves_cursor_past_end :
    (helloBox.cursorPos = 5 ∧ helloBox.text.getLength = 5 ∧
      (setText wrapNewlines helloBox "hi".toList).cursorPos = 5 ∧
      (setText wrapNewlines helloBox "hi".toList).text.getLength = 2 ∧
      ¬ cursorInText (setText wrapNewlines helloBox "hi".toList)) ∧
    (oneRowBox.cursorPos = 5 ∧ oneRowBox.text.getLength = 5 ∧
      (appendText wrapNewlines oneRowBox "b\n".toList).cursorPos = 5 ∧
      (appendText wrapNewlines oneRowBox "b\n".toList).text.getLength = 2 ∧
      ¬ cursorInText (appendText wrapNewlines oneRowBox "b\n".toList)) := by
  refine ⟨⟨by decide, by decide, by decide, by decide, ?_⟩,
    ⟨by decide, by decide, by decide, by decide, ?_⟩⟩
  · intro h
    exact absurd h.2 (by decide)
  · intro h
    exact absurd h.2 (by decide)

end MultiLineTextBox

end Woopsi
